import Mathlib

/-!
# Verification of the webhook-verify signature engine

This file shallowly embeds the TypeScript sources of the `webhook-verify`
package (provider-keyed webhook signature verification) into Lean 4 and
proves properties of the embedding.

Modelling conventions:
* JavaScript strings are modelled as `List Char`; JS `undefined` for a
  possibly-absent string is `Option (List Char)` (`none` = `undefined`).
* Byte buffers are `List Nat` with every element `< 256`.
* 32-bit arithmetic is `Nat` arithmetic reduced `% 2^32` where the source
  relies on wrapping.
* `Date.now()` is a parameter `nowMs : Int` threaded to every verifier
  that reads the clock.
* Code that can throw is modelled in `Except (List Char)`.
* The asymmetric primitives (Ed25519, RSA, ECDSA), which the source
  delegates to Node's `crypto` module, are uninterpreted oracle functions:
  no claim depends on their internals.
-/

set_option maxRecDepth 1000000
set_option maxHeartbeats 2000000

namespace WV

/-- Characters of a Lean string literal, used to write JS string literals. -/
def s2c (s : String) : List Char := s.data

/-! ## JS string primitives (over `List Char`) -/

/-- JS `String.prototype.toLowerCase` restricted to ASCII (all inputs in the
claims are ASCII). -/
def jsLowerChar (c : Char) : Char :=
  if 'A' ≤ c ∧ c ≤ 'Z' then Char.ofNat (c.toNat + 32) else c

/-- JS `s.toLowerCase()` (ASCII). -/
def jsToLower (s : List Char) : List Char := s.map jsLowerChar

/-- JS whitespace for `trim` / `parseInt` (the ASCII subset that can occur
in the claims' inputs). -/
def isJsWs (c : Char) : Bool := c = ' ' ∨ c = '\t' ∨ c = '\n' ∨ c = '\r'

/-- JS `s.trim()`. -/
def jsTrim (s : List Char) : List Char :=
  (s.dropWhile isJsWs).reverse.dropWhile isJsWs |>.reverse

/-- JS `s.split(sep)` for a single-character separator.
`''.split(c) = ['']` in JS, matching the `[[]]` base case. -/
def jsSplitChar (sep : Char) : List Char → List (List Char)
  | [] => [[]]
  | c :: rest =>
    match jsSplitChar sep rest with
    | [] => if c = sep then [[], []] else [[c]]
    | h :: t => if c = sep then [] :: h :: t else (c :: h) :: t

/-- JS `s.split(sep)` for a multi-character separator (used by the Zendesk
verifier's `split(',t=')`), via fuel recursion. -/
def jsSplitStrAux (sep : List Char) : Nat → List Char → List (List Char)
  | 0, s => [s]
  | _, [] => [[]]
  | fuel + 1, s@(c :: rest) =>
    if sep.isPrefixOf s then
      match jsSplitStrAux sep fuel (s.drop sep.length) with
      | [] => [[], []]
      | h :: t => [] :: h :: t
    else
      match jsSplitStrAux sep fuel rest with
      | [] => [[c]]
      | h :: t => (c :: h) :: t

def jsSplitStr (sep s : List Char) : List (List Char) :=
  if sep = [] then [s] else jsSplitStrAux sep s.length s

/-- JS `s.startsWith(p)`. -/
def jsStartsWith (s p : List Char) : Bool := p.isPrefixOf s

/-- JS `s.includes1(c)` — membership of a single character. -/
def jsIncludes (s : List Char) (c : Char) : Bool := s.contains c

/-- JS `parseInt(s, 10)`: skip leading whitespace, optional sign, then the
maximal run of decimal digits; `none` models `NaN` (no digits). -/
def jsParseIntCore (sign : Int) (s : List Char) : Option Int :=
  let digits := s.takeWhile Char.isDigit
  if digits = [] then none
  else some (sign * (digits.foldl (fun a c => a * 10 + (c.toNat - '0'.toNat)) 0 : Nat))

def jsParseInt (s : List Char) : Option Int :=
  match s.dropWhile isJsWs with
  | '-' :: rest => jsParseIntCore (-1) rest
  | '+' :: rest => jsParseIntCore 1 rest
  | rest => jsParseIntCore 1 rest

/-- JS `String(n)` for an integer value. -/
def jsNumToString (n : Int) : List Char := (toString n).data

/-! ## Bytes, UTF-8 and 32-bit words -/

/-- UTF-8 encoding of one Unicode scalar value. -/
def utf8Char (c : Char) : List Nat :=
  let n := c.toNat
  if n < 0x80 then [n]
  else if n < 0x800 then [0xC0 + n / 0x40, 0x80 + n % 0x40]
  else if n < 0x10000 then
    [0xE0 + n / 0x1000, 0x80 + n / 0x40 % 0x40, 0x80 + n % 0x40]
  else
    [0xF0 + n / 0x40000, 0x80 + n / 0x1000 % 0x40, 0x80 + n / 0x40 % 0x40,
     0x80 + n % 0x40]

/-- `Buffer.from(s)` / `Buffer.from(s, 'utf8')`: UTF-8 bytes of a string. -/
def utf8 (s : List Char) : List Nat := s.flatMap utf8Char

/-- `buffer.toString('utf8')` restricted to well-formed sequences; a byte
that does not begin a well-formed sequence decodes to U+FFFD (as Node
substitutes the replacement character). -/
def utf8Decode : List Nat → List Char
  | [] => []
  | [b] =>
    if b < 0x80 then [Char.ofNat b] else [Char.ofNat 0xFFFD]
  | b :: b2 :: rest2 =>
    if b < 0x80 then
      Char.ofNat b :: utf8Decode (b2 :: rest2)
    else if 0xC2 ≤ b ∧ b < 0xE0 then
      if 0x80 ≤ b2 ∧ b2 < 0xC0 then
        Char.ofNat ((b - 0xC0) * 0x40 + (b2 - 0x80)) :: utf8Decode rest2
      else Char.ofNat 0xFFFD :: utf8Decode (b2 :: rest2)
    else if 0xE0 ≤ b ∧ b < 0xF0 then
      match rest2 with
      | b3 :: rest3 =>
        if (0x80 ≤ b2 ∧ b2 < 0xC0) ∧ (0x80 ≤ b3 ∧ b3 < 0xC0) then
          Char.ofNat ((b - 0xE0) * 0x1000 + (b2 - 0x80) * 0x40 + (b3 - 0x80)) ::
            utf8Decode rest3
        else Char.ofNat 0xFFFD :: utf8Decode (b2 :: b3 :: rest3)
      | [] => Char.ofNat 0xFFFD :: utf8Decode [b2]
    else Char.ofNat 0xFFFD :: utf8Decode (b2 :: rest2)

/-- 2^32. -/
def M32 : Nat := 4294967296

/-- 32-bit right rotation. -/
def rotr32 (n x : Nat) : Nat := (x / 2 ^ n + x % 2 ^ n * 2 ^ (32 - n)) % M32

/-- 32-bit left rotation. -/
def rotl32 (n x : Nat) : Nat := rotr32 (32 - n) x

/-- Big-endian bytes of a 32-bit word. -/
def word32Bytes (x : Nat) : List Nat :=
  [x / 0x1000000 % 256, x / 0x10000 % 256, x / 0x100 % 256, x % 256]

/-- Big-endian 64-bit length field (as 8 bytes). -/
def word64Bytes (x : Nat) : List Nat :=
  word32Bytes (x / M32 % M32) ++ word32Bytes (x % M32)

/-- Read 32-bit big-endian words from bytes. -/
def bytesToWords : List Nat → List Nat
  | b0 :: b1 :: b2 :: b3 :: rest =>
    (b0 * 0x1000000 + b1 * 0x10000 + b2 * 0x100 + b3) :: bytesToWords rest
  | _ => []

/-- Split a list into chunks of `n` elements (`n > 0`), by fuel recursion
(the fuel is the list length, enough since every step consumes at least
one element). -/
def chunksAux (n : Nat) : Nat → List Nat → List (List Nat)
  | 0, _ => []
  | _, [] => []
  | fuel + 1, l => l.take n :: chunksAux n fuel (l.drop n)

def chunks (n : Nat) (l : List Nat) : List (List Nat) :=
  if n = 0 then [] else chunksAux n l.length l

/-- Merkle–Damgård padding shared by SHA-1 and SHA-256: append `0x80`,
zeros, and the 64-bit big-endian bit length. -/
def mdPad (msg : List Nat) : List Nat :=
  let len := msg.length
  let zeros := (64 - (len + 9) % 64) % 64
  msg ++ 0x80 :: List.replicate zeros 0 ++ word64Bytes (len * 8)

/-! ### SHA-256 -/

def sha256K : List Nat :=
  [1116352408, 1899447441, 3049323471, 3921009573, 961987163,
   1508970993, 2453635748, 2870763221, 3624381080, 310598401,
   607225278, 1426881987, 1925078388, 2162078206, 2614888103,
   3248222580, 3835390401, 4022224774, 264347078, 604807628,
   770255983, 1249150122, 1555081692, 1996064986, 2554220882,
   2821834349, 2952996808, 3210313671, 3336571891, 3584528711,
   113926993, 338241895, 666307205, 773529912, 1294757372,
   1396182291, 1695183700, 1986661051, 2177026350, 2456956037,
   2730485921, 2820302411, 3259730800, 3345764771, 3516065817,
   3600352804, 4094571909, 275423344, 430227734, 506948616,
   659060556, 883997877, 958139571, 1322822218, 1537002063,
   1747873779, 1955562222, 2024104815, 2227730452, 2361852424,
   2428436474, 2756734187, 3204031479, 3329325298]

def sha256H0 : List Nat :=
  [1779033703, 3144134277, 1013904242, 2773480762,
   1359893119, 2600822924, 528734635, 1541459225]

/-- Extend the 16 message words to 64 schedule words. -/
def sha256Schedule (w : List Nat) : Nat → List Nat
  | 0 => w
  | k + 1 =>
    let w := sha256Schedule w k
    let i := w.length
    let w15 := w.getD (i - 15) 0
    let w2 := w.getD (i - 2) 0
    let s0 := (rotr32 7 w15).xor ((rotr32 18 w15).xor (w15 / 2 ^ 3))
    let s1 := (rotr32 17 w2).xor ((rotr32 19 w2).xor (w2 / 2 ^ 10))
    w ++ [(w.getD (i - 16) 0 + s0 + w.getD (i - 7) 0 + s1) % M32]

/-- One round of the SHA-256 compression function. -/
def sha256Round (st : List Nat) (kw : Nat × Nat) : List Nat :=
  match st with
  | [a, b, c, d, e, f, g, h] =>
    let s1 := (rotr32 6 e).xor ((rotr32 11 e).xor (rotr32 25 e))
    let ch := (e.land f).xor ((e.xor 0xFFFFFFFF).land g)
    let t1 := (h + s1 + ch + kw.1 + kw.2) % M32
    let s0 := (rotr32 2 a).xor ((rotr32 13 a).xor (rotr32 22 a))
    let mj := (a.land b).xor ((a.land c).xor (b.land c))
    let t2 := (s0 + mj) % M32
    [(t1 + t2) % M32, a, b, c, (d + t1) % M32, e, f, g]
  | st => st

/-- Process one 64-byte chunk. -/
def sha256Chunk (h : List Nat) (chunk : List Nat) : List Nat :=
  let w := sha256Schedule (bytesToWords chunk) 48
  let st := (sha256K.zip w).foldl sha256Round h
  (h.zip st).map fun p => (p.1 + p.2) % M32

/-- SHA-256 of a byte list. -/
def sha256 (msg : List Nat) : List Nat :=
  ((chunks 64 (mdPad msg)).foldl sha256Chunk sha256H0).flatMap word32Bytes

/-! ### SHA-1 -/

def sha1H0 : List Nat := [0x67452301, 0xEFCDAB89, 0x98BADCFE, 0x10325476, 0xC3D2E1F0]

def sha1Schedule (w : List Nat) : Nat → List Nat
  | 0 => w
  | k + 1 =>
    let w := sha1Schedule w k
    let i := w.length
    let x := (w.getD (i - 3) 0).xor ((w.getD (i - 8) 0).xor
              ((w.getD (i - 14) 0).xor (w.getD (i - 16) 0)))
    w ++ [rotl32 1 x]

def sha1Round (st : List Nat) (iw : Nat × Nat) : List Nat :=
  match st with
  | [a, b, c, d, e] =>
    let i := iw.1
    let f :=
      if i < 20 then (b.land c).xor ((b.xor 0xFFFFFFFF).land d)
      else if i < 40 then b.xor (c.xor d)
      else if i < 60 then (b.land c).xor ((b.land d).xor (c.land d))
      else b.xor (c.xor d)
    let k :=
      if i < 20 then 0x5A827999
      else if i < 40 then 0x6ED9EBA1
      else if i < 60 then 0x8F1BBCDC
      else 0xCA62C1D6
    [(rotl32 5 a + f + e + k + iw.2) % M32, a, rotl32 30 b, c, d]
  | st => st

def sha1Chunk (h : List Nat) (chunk : List Nat) : List Nat :=
  let w := sha1Schedule (bytesToWords chunk) 64
  let st := ((List.range 80).zip w).foldl sha1Round h
  (h.zip st).map fun p => (p.1 + p.2) % M32

/-- SHA-1 of a byte list. -/
def sha1 (msg : List Nat) : List Nat :=
  ((chunks 64 (mdPad msg)).foldl sha1Chunk sha1H0).flatMap word32Bytes

/-! ### HMAC (`crypto.createHmac(alg, key).update(msg).digest()`) -/

/-- The two hash algorithms the provider verifiers use. -/
inductive HashAlg | sha1 | sha256
deriving DecidableEq

def hashBytes : HashAlg → List Nat → List Nat
  | .sha1, m => sha1 m
  | .sha256, m => sha256 m

/-- HMAC with the 64-byte block size shared by SHA-1 and SHA-256. -/
def hmacBytes (alg : HashAlg) (key msg : List Nat) : List Nat :=
  let k0 := if key.length > 64 then hashBytes alg key else key
  let k := k0 ++ List.replicate (64 - k0.length) 0
  let ipad := k.map (Nat.xor 0x36)
  let opad := k.map (Nat.xor 0x5c)
  hashBytes alg (opad ++ hashBytes alg (ipad ++ msg))

/-! ### Encodings -/

def hexDigits : List Char := s2c "0123456789abcdef"

/-- `buffer.toString('hex')` (lower-case). -/
def hexEncode (bs : List Nat) : List Char :=
  bs.flatMap fun b => [hexDigits.getD (b / 16) '0', hexDigits.getD (b % 16) '0']

def b64Alphabet : List Char :=
  s2c "ABCDEFGHIJKLMNOPQRSTUVWXYZabcdefghijklmnopqrstuvwxyz0123456789+/"

def b64UrlAlphabet : List Char :=
  s2c "ABCDEFGHIJKLMNOPQRSTUVWXYZabcdefghijklmnopqrstuvwxyz0123456789-_"

/-- `buffer.toString('base64')` (standard alphabet, `=`-padded). -/
def base64Encode : List Nat → List Char
  | [] => []
  | [b1] =>
    [b64Alphabet.getD (b1 / 4) 'A', b64Alphabet.getD (b1 % 4 * 16) 'A', '=', '=']
  | [b1, b2] =>
    [b64Alphabet.getD (b1 / 4) 'A', b64Alphabet.getD (b1 % 4 * 16 + b2 / 16) 'A',
     b64Alphabet.getD (b2 % 16 * 4) 'A', '=']
  | b1 :: b2 :: b3 :: rest =>
    [b64Alphabet.getD (b1 / 4) 'A', b64Alphabet.getD (b1 % 4 * 16 + b2 / 16) 'A',
     b64Alphabet.getD (b2 % 16 * 4 + b3 / 64) 'A', b64Alphabet.getD (b3 % 64) 'A'] ++
    base64Encode rest

/-- `hash.digest('base64url')` (URL-safe alphabet, no padding). -/
def base64UrlEncode : List Nat → List Char
  | [] => []
  | [b1] =>
    [b64UrlAlphabet.getD (b1 / 4) 'A', b64UrlAlphabet.getD (b1 % 4 * 16) 'A']
  | [b1, b2] =>
    [b64UrlAlphabet.getD (b1 / 4) 'A', b64UrlAlphabet.getD (b1 % 4 * 16 + b2 / 16) 'A',
     b64UrlAlphabet.getD (b2 % 16 * 4) 'A']
  | b1 :: b2 :: b3 :: rest =>
    [b64UrlAlphabet.getD (b1 / 4) 'A', b64UrlAlphabet.getD (b1 % 4 * 16 + b2 / 16) 'A',
     b64UrlAlphabet.getD (b2 % 16 * 4 + b3 / 64) 'A', b64UrlAlphabet.getD (b3 % 64) 'A'] ++
    base64UrlEncode rest

/-- Value of one base64 character; Node's decoder accepts the standard and
the URL-safe alphabets interchangeably. -/
def b64CharValue (c : Char) : Option Nat :=
  if 'A' ≤ c ∧ c ≤ 'Z' then some (c.toNat - 'A'.toNat)
  else if 'a' ≤ c ∧ c ≤ 'z' then some (c.toNat - 'a'.toNat + 26)
  else if '0' ≤ c ∧ c ≤ '9' then some (c.toNat - '0'.toNat + 52)
  else if c = '+' ∨ c = '-' then some 62
  else if c = '/' ∨ c = '_' then some 63
  else none

def b64Quads : List Nat → List Nat
  | v1 :: v2 :: v3 :: v4 :: rest =>
    (v1 * 4 + v2 / 16) :: (v2 % 16 * 16 + v3 / 4) :: (v3 % 4 * 64 + v4) ::
      b64Quads rest
  | [v1, v2, v3] => [v1 * 4 + v2 / 16, v2 % 16 * 16 + v3 / 4]
  | [v1, v2] => [v1 * 4 + v2 / 16]
  | _ => []

/-- `Buffer.from(s, 'base64')`: Node's lenient decoder skips characters
outside both base64 alphabets (including `=` padding) and drops a trailing
group that holds fewer than 8 bits. -/
def nodeB64Decode (s : List Char) : List Nat :=
  b64Quads (s.filterMap b64CharValue)

/-! ## JSON (`JSON.parse` / `JSON.stringify`)

The Crystallize verifier parses the JWT payload with `JSON.parse` and
hashes `JSON.stringify({url, method, body})`.  Number literals are
modelled as integers: a fractional or exponent literal makes the parse
fail in the model (no claim involves non-integer JSON numbers). -/

inductive Json where
  | null : Json
  | bool (b : Bool) : Json
  | num (n : Int) : Json
  | str (s : List Char) : Json
  | arr (elems : List Json) : Json
  | obj (members : List (List Char × Json)) : Json

def jsonWsSkip (s : List Char) : List Char :=
  s.dropWhile fun c => c = ' ' ∨ c = '\t' ∨ c = '\n' ∨ c = '\r'

def hexVal (c : Char) : Option Nat :=
  if '0' ≤ c ∧ c ≤ '9' then some (c.toNat - '0'.toNat)
  else if 'a' ≤ c ∧ c ≤ 'f' then some (c.toNat - 'a'.toNat + 10)
  else if 'A' ≤ c ∧ c ≤ 'F' then some (c.toNat - 'A'.toNat + 10)
  else none

/-- Parse the body of a JSON string literal (after the opening quote);
fuel recursion (every step consumes at least one character). -/
def parseJsonStringAux : Nat → List Char → Option (List Char × List Char)
  | 0, _ => none
  | _, [] => none
  | _, '"' :: rest => some ([], rest)
  | fuel + 1, '\\' :: e :: rest =>
    if e = 'u' then
      match rest with
      | h1 :: h2 :: h3 :: h4 :: rest4 =>
        match hexVal h1, hexVal h2, hexVal h3, hexVal h4 with
        | some v1, some v2, some v3, some v4 =>
          (parseJsonStringAux fuel rest4).map fun r =>
            (Char.ofNat (v1 * 4096 + v2 * 256 + v3 * 16 + v4) :: r.1, r.2)
        | _, _, _, _ => none
      | _ => none
    else
      (match e with
       | '"' => some '"' | '\\' => some '\\' | '/' => some '/'
       | 'b' => some (Char.ofNat 8) | 'f' => some (Char.ofNat 12)
       | 'n' => some '\n' | 'r' => some '\r' | 't' => some '\t'
       | _ => none).bind fun c =>
        (parseJsonStringAux fuel rest).map fun (r : List Char × List Char) => (c :: r.1, r.2)
  | fuel + 1, c :: rest =>
    if c.toNat < 0x20 then none
    else (parseJsonStringAux fuel rest).map fun r => (c :: r.1, r.2)

def parseJsonString (s : List Char) : Option (List Char × List Char) :=
  parseJsonStringAux (s.length + 1) s

/-- Parse a JSON integer literal (sign and digits; a following `.`, `e`
or `E` is rejected — see the module note). -/
def parseJsonNum (s : List Char) : Option (Int × List Char) :=
  let (sign, s') : Int × List Char :=
    match s with
    | '-' :: rest => (-1, rest)
    | _ => (1, s)
  let digits := s'.takeWhile Char.isDigit
  let rest := s'.dropWhile Char.isDigit
  if digits = [] then none
  else
    match rest with
    | '.' :: _ => none
    | 'e' :: _ => none
    | 'E' :: _ => none
    | _ =>
      some (sign * (digits.foldl (fun a c => a * 10 + (c.toNat - '0'.toNat)) 0 : Nat), rest)

mutual

def parseJsonVal : Nat → List Char → Option (Json × List Char)
  | 0, _ => none
  | fuel + 1, s =>
    match jsonWsSkip s with
    | 'n' :: 'u' :: 'l' :: 'l' :: rest => some (.null, rest)
    | 't' :: 'r' :: 'u' :: 'e' :: rest => some (.bool true, rest)
    | 'f' :: 'a' :: 'l' :: 's' :: 'e' :: rest => some (.bool false, rest)
    | '"' :: rest => (parseJsonString rest).map fun r => (.str r.1, r.2)
    | '[' :: rest =>
      (match jsonWsSkip rest with
       | ']' :: rest2 => some (.arr [], rest2)
       | _ => (parseJsonElems fuel rest).map fun r => (.arr r.1, r.2))
    | '\x7b' :: rest =>
      (match jsonWsSkip rest with
       | '\x7d' :: rest2 => some (.obj [], rest2)
       | _ => (parseJsonMembers fuel rest).map fun r => (.obj r.1, r.2))
    | s' => (parseJsonNum s').map fun r => (.num r.1, r.2)

def parseJsonElems : Nat → List Char → Option (List Json × List Char)
  | 0, _ => none
  | fuel + 1, s =>
    (parseJsonVal fuel s).bind fun (v, rest) =>
      match jsonWsSkip rest with
      | ',' :: rest2 => (parseJsonElems fuel rest2).map fun r => (v :: r.1, r.2)
      | ']' :: rest2 => some ([v], rest2)
      | _ => none

def parseJsonMembers : Nat → List Char → Option (List (List Char × Json) × List Char)
  | 0, _ => none
  | fuel + 1, s =>
    match jsonWsSkip s with
    | '"' :: rest =>
      (parseJsonString rest).bind fun (k, rest1) =>
        match jsonWsSkip rest1 with
        | ':' :: rest2 =>
          (parseJsonVal fuel rest2).bind fun (v, rest3) =>
            (match jsonWsSkip rest3 with
             | ',' :: rest4 => (parseJsonMembers fuel rest4).map fun r => ((k, v) :: r.1, r.2)
             | '\x7d' :: rest4 => some ([(k, v)], rest4)
             | _ => none)
        | _ => none
    | _ => none

end

/-- `JSON.parse(s)` (integer numbers only, see module note). -/
def jsonParse (s : List Char) : Option Json :=
  (parseJsonVal (2 * s.length + 4) s).bind fun (v, rest) =>
    if jsonWsSkip rest = [] then some v else none

/-- JS property access `o[k]` on a parsed JSON value: only objects have
the key; a duplicate key keeps the last occurrence (as `JSON.parse` does). -/
def jsonGet (v : Json) (k : List Char) : Option Json :=
  match v with
  | .obj kvs => (kvs.reverse.find? fun kv => kv.1 = k).map Prod.snd
  | _ => none

/-- JS truthiness of a `JSON.parse` result. -/
def jsTruthy : Json → Bool
  | .null => false
  | .bool b => b
  | .num n => n ≠ 0
  | .str s => s ≠ []
  | .arr _ => true
  | .obj _ => true

/-- Escape of one character inside a `JSON.stringify` string. -/
def jsonEscapeChar (c : Char) : List Char :=
  if c = '"' then ['\\', '"']
  else if c = '\\' then ['\\', '\\']
  else if c.toNat = 8 then ['\\', 'b']
  else if c.toNat = 12 then ['\\', 'f']
  else if c = '\n' then ['\\', 'n']
  else if c = '\r' then ['\\', 'r']
  else if c = '\t' then ['\\', 't']
  else if c.toNat < 0x20 then
    ['\\', 'u', '0', '0', hexDigits.getD (c.toNat / 16) '0', hexDigits.getD (c.toNat % 16) '0']
  else [c]

def jsonQuote (s : List Char) : List Char :=
  '"' :: s.flatMap jsonEscapeChar ++ ['"']

/-- `JSON.stringify({url: u, method: m, body: b})` for string fields. -/
def jsonStringifyUMB (url method body : List Char) : List Char :=
  s2c "\x7b\"url\":" ++ jsonQuote url ++ s2c ",\"method\":" ++ jsonQuote method ++
    s2c ",\"body\":" ++ jsonQuote body ++ s2c "\x7d"

/-! ## The primitive layer (`src/utils/crypto.ts`) -/

/-- `secureCompare(a, b)`: `timingSafeEqual` on the UTF-8 buffers of two
strings decides exactly string equality (the length/timing behaviour has no
observable value-level effect). -/
def secureCompare (a b : List Char) : Bool := a = b

/-- `computeHmacHex(algorithm, secret, payload)` for string arguments. -/
def computeHmacHexS (alg : HashAlg) (secret payload : List Char) : List Char :=
  hexEncode (hmacBytes alg (utf8 secret) (utf8 payload))

/-- `computeHmacBase64(algorithm, secret, payload)` for string arguments. -/
def computeHmacBase64S (alg : HashAlg) (secret payload : List Char) : List Char :=
  base64Encode (hmacBytes alg (utf8 secret) (utf8 payload))

/-- `isTimestampValid(timestamp, toleranceSeconds = 300)`.  The timestamp is
a string (parsed with `parseInt(·, 10)`) or a number; `none` from the parse
models `NaN`.  `nowMs` models `Date.now()`. -/
def isTimestampValid (nowMs : Int) (timestamp : List Char ⊕ Int)
    (toleranceSeconds : Int := 300) : Bool :=
  let ts : Option Int :=
    match timestamp with
    | .inl s => jsParseInt s
    | .inr n => some n
  match ts with
  | none => false
  | some t =>
    if t ≤ 0 then false
    else
      let now := Int.fdiv nowMs 1000
      decide (|now - t| ≤ toleranceSeconds)

/-- `validateTimestamp` from `algorithms.ts` forwards to `isTimestampValid`. -/
def validateTimestamp (nowMs : Int) (timestamp : List Char ⊕ Int)
    (tolerance : Int := 300) : Bool :=
  isTimestampValid nowMs timestamp tolerance

/-! ## Options and oracles -/

/-- The recognized option keys of `VerifyOptions` (`src/types.ts`).
`none` models an absent key. -/
structure VerifyOptions where
  tolerance : Option Int := none
  url : Option (List Char) := none
  method : Option (List Char) := none
  additionalSecrets : Option (List (List Char)) := none
deriving DecidableEq

/-- Uninterpreted asymmetric-crypto primitives (`verifyEd25519`,
`verifyRsa`, and SendGrid's inline ECDSA block).  Each takes the public
key, the encoded signature and the message, exactly as the source passes
them; a parse failure inside the source's `try` blocks is a `false`
result of the oracle. -/
structure CryptoOracles where
  ed25519Verify : List Char → List Char → List Char → Bool
  rsaVerify : List Char → List Char → List Char → Bool
  ecdsaVerify : List Char → List Char → List Char → Bool

/-- Oracles that reject everything; used to instantiate closed statements
about providers that never reach the asymmetric primitives. -/
def noOracles : CryptoOracles := ⟨fun _ _ _ => false, fun _ _ _ => false, fun _ _ _ => false⟩

/-- JS falsiness of a possibly-`undefined` string (`!x`). -/
def undefOrEmpty : Option (List Char) → Bool
  | none => true
  | some s => s = []

/-! ## Provider verifiers

Each function is the translation of one provider's `verify`, with string
payloads (the `Buffer` overloads of the sources behave identically after
`payload.toString('utf8')`, except that the guards treat an empty `Buffer`
as truthy; no claim involves `Buffer` payloads). -/

/-- `github.verify` (`src/providers/github.ts`). -/
def githubVerify (payload sig secret : List Char) : Bool :=
  if payload = [] ∨ sig = [] ∨ secret = [] then false
  else
    let expectedSig := if jsStartsWith sig (s2c "sha256=") then sig.drop 7 else sig
    let computedSig := computeHmacHexS .sha256 secret payload
    secureCompare computedSig (jsToLower expectedSig)

/-- `typeform.verify`: base64 digest, optional `sha256=` prefix, no
lower-casing. -/
def typeformVerify (payload sig secret : List Char) : Bool :=
  if payload = [] ∨ sig = [] ∨ secret = [] then false
  else
    let expectedSig := if jsStartsWith sig (s2c "sha256=") then sig.drop 7 else sig
    secureCompare (computeHmacBase64S .sha256 secret payload) expectedSig

/-- `intercom.verify`: hex SHA-1 digest, optional `sha1=` prefix. -/
def intercomVerify (payload sig secret : List Char) : Bool :=
  if payload = [] ∨ sig = [] ∨ secret = [] then false
  else
    let expectedSig := if jsStartsWith sig (s2c "sha1=") then sig.drop 5 else sig
    secureCompare (computeHmacHexS .sha1 secret payload) (jsToLower expectedSig)

/-- `shopify.verify`: bare base64 HMAC-SHA256. -/
def shopifyVerify (payload sig secret : List Char) : Bool :=
  if payload = [] ∨ sig = [] ∨ secret = [] then false
  else secureCompare (computeHmacBase64S .sha256 secret payload) sig

/-- `mailchimp.verify`: bare base64 HMAC-SHA256. -/
def mailchimpVerify (payload sig secret : List Char) : Bool :=
  if payload = [] ∨ sig = [] ∨ secret = [] then false
  else secureCompare (computeHmacBase64S .sha256 secret payload) sig

/-- `linear.verify`: bare hex HMAC-SHA256, incoming hex lower-cased. -/
def linearVerify (payload sig secret : List Char) : Bool :=
  if payload = [] ∨ sig = [] ∨ secret = [] then false
  else secureCompare (computeHmacHexS .sha256 secret payload) (jsToLower sig)

/-- `vercel.verify`: bare hex HMAC-SHA1, incoming hex lower-cased. -/
def vercelVerify (payload sig secret : List Char) : Bool :=
  if payload = [] ∨ sig = [] ∨ secret = [] then false
  else secureCompare (computeHmacHexS .sha1 secret payload) (jsToLower sig)

/-- `segment.verify`: bare hex HMAC-SHA1, incoming hex lower-cased. -/
def segmentVerify (payload sig secret : List Char) : Bool :=
  if payload = [] ∨ sig = [] ∨ secret = [] then false
  else secureCompare (computeHmacHexS .sha1 secret payload) (jsToLower sig)

/-- `gitlab.verify`: the payload parameter is unused by the source
(`verify(_payload, signature, secret)`); the token is compared directly
against the secret. -/
def gitlabVerify (_payload sig secret : List Char) : Bool :=
  if sig = [] ∨ secret = [] then false
  else secureCompare sig secret

/-- The parsing loop of `stripe.verify`: `t=` sets the timestamp (possibly
back to `undefined`), `v1=` pushes the (possibly `undefined`) value. -/
def stripeParseParts : List (List Char) → Option (List Char) → List (Option (List Char)) →
    Option (List Char) × List (Option (List Char))
  | [], t, sigs => (t, sigs)
  | p :: rest, t, sigs =>
    let kv := jsSplitChar '=' p
    let value := kv[1]?
    if kv.headD [] = s2c "t" then stripeParseParts rest value sigs
    else if kv.headD [] = s2c "v1" then stripeParseParts rest t (sigs ++ [value])
    else stripeParseParts rest t sigs

/-- `signatures.some(sig => secureCompare(expectedSig, sig.toLowerCase()))`:
the callback throws a `TypeError` when it reaches an `undefined` candidate
(a bare `v1` part with no `=`), so the traversal lives in `Except`. -/
def stripeCheckSigs (expected : List Char) : List (Option (List Char)) → Except (List Char) Bool
  | [] => .ok false
  | none :: _ => .error (s2c "TypeError: sig is undefined")
  | some c :: rest =>
    if secureCompare expected (jsToLower c) then .ok true else stripeCheckSigs expected rest

/-- `stripe.verify` (`src/providers/stripe.ts`). -/
def stripeVerify (nowMs : Int) (payload sig secret : List Char)
    (options : VerifyOptions) : Except (List Char) Bool :=
  if payload = [] ∨ sig = [] ∨ secret = [] then .ok false
  else
    let tolerance := options.tolerance.getD 300
    let (timestamp, signatures) := stripeParseParts (jsSplitChar ',' sig) none []
    if undefOrEmpty timestamp ∨ signatures = [] then .ok false
    else
      let t := timestamp.getD []
      if ¬ isTimestampValid nowMs (.inl t) tolerance then .ok false
      else
        let signedPayload := t ++ s2c "." ++ payload
        stripeCheckSigs (computeHmacHexS .sha256 secret signedPayload) signatures

/-- `slack.verify` (`src/providers/slack.ts`). -/
def slackVerify (nowMs : Int) (payload sig secret : List Char)
    (options : VerifyOptions) : Bool :=
  if payload = [] ∨ sig = [] ∨ secret = [] then false
  else
    let tolerance := options.tolerance.getD 300
    let (sigv, timestamp) :=
      if jsIncludes sig ',' then
        (jsSplitChar ',' sig).foldl
          (fun (acc : Option (List Char) × Option (List Char)) part =>
            let kv := jsSplitChar '=' part
            if kv.headD [] = s2c "v0" then (kv[1]?, acc.2)
            else if kv.headD [] = s2c "t" then (acc.1, kv[1]?)
            else acc)
          (none, none)
      else if jsStartsWith sig (s2c "v0=") then
        (some (sig.drop 3), some (jsNumToString (Int.fdiv nowMs 1000)))
      else
        (some sig, some (jsNumToString (Int.fdiv nowMs 1000)))
    if undefOrEmpty sigv ∨ undefOrEmpty timestamp then false
    else
      let t := timestamp.getD []
      if ¬ isTimestampValid nowMs (.inl t) tolerance then false
      else
        let baseString := s2c "v0:" ++ t ++ s2c ":" ++ payload
        let expectedSig := computeHmacHexS .sha256 secret baseString
        secureCompare (s2c "v0=" ++ expectedSig) (s2c "v0=" ++ jsToLower (sigv.getD []))

/-- The indexed parsing loop of `svix.verify`: a trimmed part equal to
`v1` pushes the next (trimmed) part and skips it; `t=`/`id=` prefixes set
the timestamp and message id. -/
def svixParseStep (part : List Char) (st : List (List Char) × Option (List Char) × Option (List Char)) :
    List (List Char) × Option (List Char) × Option (List Char) :=
  if jsStartsWith part (s2c "t=") then (st.1, some (part.drop 2), st.2.2)
  else if jsStartsWith part (s2c "id=") then (st.1, st.2.1, some (part.drop 3))
  else st

def svixParse : List (List Char) → List (List Char) → Option (List Char) → Option (List Char) →
    List (List Char) × Option (List Char) × Option (List Char)
  | [], sigs, t, id => (sigs, t, id)
  | [p], sigs, t, id => svixParseStep (jsTrim p) (sigs, t, id)
  | p :: next :: rest, sigs, t, id =>
    let part := jsTrim p
    if part = s2c "v1" then
      svixParse rest (sigs ++ [jsTrim next]) t id
    else
      match svixParseStep part (sigs, t, id) with
      | (sigs', t', id') => svixParse (next :: rest) sigs' t' id'

/-- The `whsec_` handling of `svix.verify`: strip the prefix when present,
then base64-decode the remainder into the HMAC key. -/
def svixSecretKey (secret : List Char) : List Nat :=
  if jsStartsWith secret (s2c "whsec_") then nodeB64Decode (secret.drop 6)
  else nodeB64Decode secret

/-- `svix.verify` (`src/providers/svix.ts`). -/
def svixVerify (nowMs : Int) (payload sig secret : List Char)
    (options : VerifyOptions) : Bool :=
  if payload = [] ∨ sig = [] ∨ secret = [] then false
  else
    let tolerance := options.tolerance.getD 300
    let (signatures, timestamp, msgId) := svixParse (jsSplitChar ',' sig) [] none none
    if undefOrEmpty timestamp ∨ undefOrEmpty msgId ∨ signatures = [] then false
    else
      let t := timestamp.getD []
      if ¬ isTimestampValid nowMs (.inl t) tolerance then false
      else
        let signedPayload := msgId.getD [] ++ s2c "." ++ t ++ s2c "." ++ payload
        let expectedSig := base64Encode (hmacBytes .sha256 (svixSecretKey secret) (utf8 signedPayload))
        signatures.any fun s => secureCompare expectedSig s

/-- `clerk.verify` delegates to `svix.verify`. -/
def clerkVerify (nowMs : Int) (payload sig secret : List Char)
    (options : VerifyOptions) : Bool :=
  svixVerify nowMs payload sig secret options

/-- `zendesk.verify`.  A non-numeric timestamp makes `parseInt` return
`NaN`, and `Math.abs(now - NaN) > tolerance` is `false`, so the freshness
test does not reject it. -/
def zendeskVerify (nowMs : Int) (payload sig secret : List Char)
    (options : VerifyOptions) : Bool :=
  if payload = [] ∨ sig = [] ∨ secret = [] then false
  else
    match jsSplitStr (s2c ",t=") sig with
    | [sg, timestamp] =>
      if sg = [] ∨ timestamp = [] then false
      else
        let tolerance := options.tolerance.getD 300
        let stale :=
          match jsParseInt timestamp with
          | some n => decide (|Int.fdiv nowMs 1000 - n| > tolerance)
          | none => false
        if stale then false
        else
          secureCompare
            (base64Encode (hmacBytes .sha256 (utf8 secret) (utf8 (timestamp ++ payload)))) sg
    | _ => false

/-- `square.verify`: HMAC-SHA256 base64 over `url + body`; absent (or
empty) `options.url` yields `false`. -/
def squareVerify (payload sig secret : List Char) (options : VerifyOptions) : Bool :=
  if payload = [] ∨ sig = [] ∨ secret = [] then false
  else
    match options.url with
    | none => false
    | some url =>
      if url = [] then false
      else
        secureCompare (base64Encode (hmacBytes .sha256 (utf8 secret) (utf8 (url ++ payload)))) sig

/-- `hubspot.verify`: signature token `sig,t=<ms-timestamp>`; timestamp in
milliseconds, compared against `tolerance * 1000`; `??` keeps an empty
`method` string (nullish coalescing). -/
def hubspotVerify (nowMs : Int) (payload sig secret : List Char)
    (options : VerifyOptions) : Bool :=
  if payload = [] ∨ sig = [] ∨ secret = [] then false
  else
    let parts := jsSplitChar ',' sig
    let sg := parts.headD []
    let timestamp := parts.tail.foldl
      (fun (acc : Option (List Char)) part =>
        if jsStartsWith part (s2c "t=") then some (part.drop 2) else acc) none
    if sg = [] ∨ undefOrEmpty timestamp then false
    else
      match options.url with
      | none => false
      | some url =>
        if url = [] then false
        else
          let method := options.method.getD (s2c "POST")
          let tolerance := options.tolerance.getD 300
          let t := timestamp.getD []
          let stale :=
            match jsParseInt t with
            | some n => decide (|nowMs - n| > tolerance * 1000)
            | none => false
          if stale then false
          else
            let signedPayload := method ++ url ++ payload ++ t
            secureCompare
              (base64Encode (hmacBytes .sha256 (utf8 secret) (utf8 signedPayload))) sg

/-- Percent-decoding of `URLSearchParams` values: `+` is a space, `%HH` a
byte; the collected bytes are then UTF-8 decoded. -/
def pctDecodeBytes : List Char → List Nat
  | [] => []
  | [c] => if c = '+' then [0x20] else utf8Char c
  | c :: c1 :: rest1 =>
    if c = '+' then 0x20 :: pctDecodeBytes (c1 :: rest1)
    else if c = '%' then
      match rest1 with
      | c2 :: rest2 =>
        match hexVal c1, hexVal c2 with
        | some v1, some v2 => (v1 * 16 + v2) :: pctDecodeBytes rest2
        | _, _ => utf8Char c ++ pctDecodeBytes (c1 :: c2 :: rest2)
      | [] => utf8Char c ++ pctDecodeBytes [c1]
    else utf8Char c ++ pctDecodeBytes (c1 :: rest1)

/-- `new URLSearchParams(body)`: strip one leading `?`, split on `&`, drop
empty segments, split each segment at the first `=`. -/
def formPairs (s : List Char) : List (List Char × List Char) :=
  let s := if jsStartsWith s (s2c "?") then s.drop 1 else s
  (jsSplitChar '&' s).filterMap fun seg =>
    if seg = [] then none
    else
      some (utf8Decode (pctDecodeBytes (seg.takeWhile (· ≠ '='))),
            utf8Decode (pctDecodeBytes ((seg.dropWhile (· ≠ '=')).drop 1)))

/-- Code-point comparison of keys.  The source sorts with
`localeCompare`, whose ICU ordering can differ from code-point order on
mixed-case keys; no claim depends on the parameter ordering. -/
def strLt : List Char → List Char → Bool
  | [], [] => false
  | [], _ :: _ => true
  | _ :: _, [] => false
  | a :: as, b :: bs => if a < b then true else if b < a then false else strLt as bs

/-- Stable insertion sort by key (V8's `Array.prototype.sort` is stable). -/
def insertByKey (x : List Char × List Char) :
    List (List Char × List Char) → List (List Char × List Char)
  | [] => [x]
  | y :: ys => if strLt x.1 y.1 then x :: y :: ys else y :: insertByKey x ys

def sortPairsByKey (l : List (List Char × List Char)) : List (List Char × List Char) :=
  l.foldr insertByKey []

/-- `twilio.verify`: HMAC-SHA1 base64 over the URL followed by the sorted
`key + value` pairs of the form body. -/
def twilioVerify (payload sig secret : List Char) (options : VerifyOptions) : Bool :=
  if payload = [] ∨ sig = [] ∨ secret = [] then false
  else
    match options.url with
    | none => false
    | some url =>
      if url = [] then false
      else
        let sorted := sortPairsByKey (formPairs payload)
        let signatureBase := url ++ sorted.flatMap fun kv => kv.1 ++ kv.2
        secureCompare (base64Encode (hmacBytes .sha1 (utf8 secret) (utf8 signatureBase))) sig

/-- `discord.verify`: Ed25519 over `timestamp + payload`; the token is
`<sig>,t=<ts>` (each non-`t=` part reassigns the signature). -/
def discordVerify (O : CryptoOracles) (payload sig publicKey : List Char) : Bool :=
  if payload = [] ∨ sig = [] ∨ publicKey = [] then false
  else
    let (sigv, timestamp) :=
      if jsIncludes sig ',' then
        (jsSplitChar ',' sig).foldl
          (fun (acc : Option (List Char) × Option (List Char)) part =>
            if jsStartsWith part (s2c "t=") then (acc.1, some (part.drop 2))
            else (some part, acc.2))
          (none, none)
      else (some sig, none)
    if undefOrEmpty sigv ∨ undefOrEmpty timestamp then false
    else O.ed25519Verify publicKey (sigv.getD []) (timestamp.getD [] ++ payload)

/-- `sendgrid.verify`: ECDSA over `<ts><payload>` when a timestamp is
present (`<sig>,t=<ts>` token), else over the bare payload. -/
def sendgridVerify (O : CryptoOracles) (nowMs : Int) (payload sig publicKey : List Char)
    (options : VerifyOptions) : Bool :=
  if payload = [] ∨ sig = [] ∨ publicKey = [] then false
  else
    let tolerance := options.tolerance.getD 300
    let (sigv, timestamp) :=
      if jsIncludes sig ',' then
        (jsSplitChar ',' sig).foldl
          (fun (acc : Option (List Char) × Option (List Char)) part =>
            if jsStartsWith part (s2c "t=") then (acc.1, some (part.drop 2))
            else (some part, acc.2))
          (none, none)
      else (some sig, none)
    match sigv with
    | none => false
    | some sv =>
      let tsStale : Bool :=
        match timestamp with
        | some t => if t = [] then false else ! isTimestampValid nowMs (.inl t) tolerance
        | none => false
      if tsStale then false
      else
        let signedPayload :=
          match timestamp with
          | some t => if t = [] then payload else t ++ payload
          | none => payload
        O.ecdsaVerify publicKey sv signedPayload

/-- `paddle.verify`: token `ts=<ts>;h1=<sig>`, RSA-SHA256 over
`<ts>:<payload>`. -/
def paddleVerify (O : CryptoOracles) (nowMs : Int) (payload sig publicKey : List Char)
    (options : VerifyOptions) : Bool :=
  if payload = [] ∨ sig = [] ∨ publicKey = [] then false
  else
    let tolerance := options.tolerance.getD 300
    let (timestamp, sigv) :=
      (jsSplitChar ';' sig).foldl
        (fun (acc : Option (List Char) × Option (List Char)) part =>
          if jsStartsWith part (s2c "ts=") then (some (part.drop 3), acc.2)
          else if jsStartsWith part (s2c "h1=") then (acc.1, some (part.drop 3))
          else acc)
        (none, none)
    if undefOrEmpty timestamp ∨ undefOrEmpty sigv then false
    else
      let t := timestamp.getD []
      if ¬ isTimestampValid nowMs (.inl t) tolerance then false
      else O.rsaVerify publicKey (sigv.getD []) (t ++ s2c ":" ++ payload)

/-! ### Crystallize -/

/-- `base64UrlDecode` from `crystallize.ts`: convert base64url to base64,
pad, decode, and read the bytes as UTF-8. -/
def base64UrlDecodeJS (s : List Char) : List Char :=
  let base64 := s.map fun c => if c = '-' then '+' else if c = '_' then '/' else c
  let padded := base64 ++ List.replicate ((4 - base64.length % 4) % 4) '='
  utf8Decode (nodeB64Decode padded)

/-- `verifyJwt(token, secret)`: split at `.` into exactly three parts,
check the HMAC-SHA256 base64url signature over `header.payload`, then
`JSON.parse` the decoded payload; `none` is `{valid: false}`. -/
def verifyJwt (token secret : List Char) : Option Json :=
  match jsSplitChar '.' token with
  | [headerB64, payloadB64, signatureB64] =>
    let expectedSignature :=
      base64UrlEncode (hmacBytes .sha256 (utf8 secret) (utf8 (headerB64 ++ s2c "." ++ payloadB64)))
    if signatureB64 ≠ expectedSignature then none
    else jsonParse (base64UrlDecodeJS payloadB64)
  | _ => none

/-- `crystallize.verify` (`src/providers/crystallize.ts`).  An absent or
empty `options.url` **throws** (`Except.error`); there is no empty-input
guard; the JWT's `exp` is only checked when it is a truthy number. -/
def crystallizeVerify (nowMs : Int) (payload sig secret : List Char)
    (options : VerifyOptions) : Except (List Char) Bool :=
  let urlOk : Option (List Char) :=
    match options.url with
    | none => none
    | some u => if u = [] then none else some u
  match urlOk with
  | none => .error (s2c "Crystallize verification requires url option")
  | some url =>
    let method := match options.method with
      | none => s2c "POST"
      | some m => if m = [] then s2c "POST" else m
    let body := payload
    match verifyJwt sig secret with
    | none => .ok false
    | some jwtPayload =>
      if ¬ jsTruthy jwtPayload then .ok false
      else
        let expStale :=
          match jsonGet jwtPayload (s2c "exp") with
          | some (.num n) => if n ≠ 0 then decide (Int.fdiv nowMs 1000 > n) else false
          | _ => false
        if expStale then .ok false
        else
          match jsonGet jwtPayload (s2c "hmac") with
          | some (.str expectedHmac) =>
            let dataToHash := jsonStringifyUMB url method body
            let computedHmac := hexEncode (hmacBytes .sha256 (utf8 secret) (utf8 dataToHash))
            .ok (computedHmac = expectedHmac)
          | _ => .ok false

deriving instance DecidableEq for Except

/-! ## Registry and dispatch (`src/providers/index.ts`, `src/index.ts`) -/

/-- The closed provider enumeration (the registry revision that includes
`zendesk`, `square`, `hubspot` and `segment`). -/
inductive Provider where
  | stripe | github | shopify | slack | twilio | discord | linear | vercel
  | svix | clerk | sendgrid | paddle | intercom | mailchimp | gitlab
  | typeform | crystallize | zendesk | square | hubspot | segment
deriving DecidableEq

/-- `verify(provider, payload, signature, secret, options)` with a string
signature: dispatch through the registry.  The result lives in `Except`
because `crystallize.verify` can throw and `stripe.verify` can raise a
`TypeError` on a malformed token. -/
def verifyTok (O : CryptoOracles) (nowMs : Int) (p : Provider)
    (payload sig secret : List Char) (options : VerifyOptions) :
    Except (List Char) Bool :=
  match p with
  | .stripe => stripeVerify nowMs payload sig secret options
  | .github => .ok (githubVerify payload sig secret)
  | .shopify => .ok (shopifyVerify payload sig secret)
  | .slack => .ok (slackVerify nowMs payload sig secret options)
  | .twilio => .ok (twilioVerify payload sig secret options)
  | .discord => .ok (discordVerify O payload sig secret)
  | .linear => .ok (linearVerify payload sig secret)
  | .vercel => .ok (vercelVerify payload sig secret)
  | .svix => .ok (svixVerify nowMs payload sig secret options)
  | .clerk => .ok (clerkVerify nowMs payload sig secret options)
  | .sendgrid => .ok (sendgridVerify O nowMs payload sig secret options)
  | .paddle => .ok (paddleVerify O nowMs payload sig secret options)
  | .intercom => .ok (intercomVerify payload sig secret)
  | .mailchimp => .ok (mailchimpVerify payload sig secret)
  | .gitlab => .ok (gitlabVerify payload sig secret)
  | .typeform => .ok (typeformVerify payload sig secret)
  | .crystallize => crystallizeVerify nowMs payload sig secret options
  | .zendesk => .ok (zendeskVerify nowMs payload sig secret options)
  | .square => .ok (squareVerify payload sig secret options)
  | .hubspot => .ok (hubspotVerify nowMs payload sig secret options)
  | .segment => .ok (segmentVerify payload sig secret)

/-! ## Header normalization (`headers.ts`) -/

/-- A header value in the duck-typed header map
(`Record<string, string | string[] | undefined>`). -/
inductive HeaderValue where
  | str (v : List Char)
  | list (vs : List (List Char))
  | undef
deriving DecidableEq

/-- A header map: `Object.entries` order. -/
def Headers := List (List Char × HeaderValue)

/-- `getHeader(headers, name)`: first key matching case-insensitively;
an array value contributes its first element (`undefined` when empty). -/
def getHeader (headers : Headers) (name : List Char) : Option (List Char) :=
  match headers.find? fun kv => jsToLower kv.1 = jsToLower name with
  | none => none
  | some (_, .str v) => some v
  | some (_, .list []) => none
  | some (_, .list (v :: _)) => some v
  | some (_, .undef) => none

/-- Required-header check: the extractors test each header value for JS
truthiness (`if (!signature) return null`), so an empty string counts as
missing. -/
def reqHeader (v : Option (List Char)) : Option (List Char) :=
  match v with
  | some s => if s = [] then none else some s
  | none => none

/-- The `signature` field produced by `providerHeaders[provider]` /
`getSignature`, i.e. the canonical token handed to the verifier (the
extractors' other fields are not consumed by `verify`).  The cited
`providerHeaders` revision covers 17 providers; for the other four the
registry lookup is `undefined` and `getSignature` throws. -/
def getSignatureTok (p : Provider) (headers : Headers) :
    Except (List Char) (Option (List Char)) :=
  match p with
  | .stripe => .ok (reqHeader (getHeader headers (s2c "stripe-signature")))
  | .github => .ok (reqHeader (getHeader headers (s2c "x-hub-signature-256")))
  | .shopify => .ok (reqHeader (getHeader headers (s2c "x-shopify-hmac-sha256")))
  | .slack =>
    .ok (match reqHeader (getHeader headers (s2c "x-slack-signature")),
               reqHeader (getHeader headers (s2c "x-slack-request-timestamp")) with
      | some sig, some ts => some (sig ++ s2c ",t=" ++ ts)
      | _, _ => none)
  | .twilio => .ok (reqHeader (getHeader headers (s2c "x-twilio-signature")))
  | .discord =>
    .ok (match reqHeader (getHeader headers (s2c "x-signature-ed25519")),
               reqHeader (getHeader headers (s2c "x-signature-timestamp")) with
      | some sig, some ts => some (sig ++ s2c ",t=" ++ ts)
      | _, _ => none)
  | .linear => .ok (reqHeader (getHeader headers (s2c "linear-signature")))
  | .vercel => .ok (reqHeader (getHeader headers (s2c "x-vercel-signature")))
  | .svix =>
    .ok (match reqHeader (getHeader headers (s2c "svix-signature")),
               reqHeader (getHeader headers (s2c "svix-timestamp")),
               reqHeader (getHeader headers (s2c "svix-id")) with
      | some sig, some ts, some id => some (sig ++ s2c ",t=" ++ ts ++ s2c ",id=" ++ id)
      | _, _, _ => none)
  | .clerk =>
    .ok (match reqHeader (getHeader headers (s2c "svix-signature")),
               reqHeader (getHeader headers (s2c "svix-timestamp")),
               reqHeader (getHeader headers (s2c "svix-id")) with
      | some sig, some ts, some id => some (sig ++ s2c ",t=" ++ ts ++ s2c ",id=" ++ id)
      | _, _, _ => none)
  | .sendgrid =>
    .ok (match reqHeader (getHeader headers (s2c "x-twilio-email-event-webhook-signature")) with
      | none => none
      | some sig =>
        match reqHeader (getHeader headers (s2c "x-twilio-email-event-webhook-timestamp")) with
        | some ts => some (sig ++ s2c ",t=" ++ ts)
        | none => some sig)
  | .paddle => .ok (reqHeader (getHeader headers (s2c "paddle-signature")))
  | .intercom => .ok (reqHeader (getHeader headers (s2c "x-hub-signature")))
  | .mailchimp => .ok (reqHeader (getHeader headers (s2c "x-mailchimp-signature")))
  | .gitlab => .ok (reqHeader (getHeader headers (s2c "x-gitlab-token")))
  | .typeform => .ok (reqHeader (getHeader headers (s2c "typeform-signature")))
  | .crystallize => .ok (reqHeader (getHeader headers (s2c "x-crystallize-signature")))
  | .zendesk => .error (s2c "Unknown webhook provider: zendesk")
  | .square => .error (s2c "Unknown webhook provider: square")
  | .hubspot => .error (s2c "Unknown webhook provider: hubspot")
  | .segment => .error (s2c "Unknown webhook provider: segment")

/-- `verify(provider, payload, headers, secret, options)` with a header
map: extract the canonical token, throwing when the required signature
header(s) are missing, then dispatch (the thrown message's header-name
list is abbreviated). -/
def verifyHdr (O : CryptoOracles) (nowMs : Int) (p : Provider)
    (payload : List Char) (headers : Headers) (secret : List Char)
    (options : VerifyOptions) : Except (List Char) Bool :=
  match getSignatureTok p headers with
  | .error e => .error e
  | .ok none => .error (s2c "Missing required webhook signature header(s)")
  | .ok (some sig) => verifyTok O nowMs p payload sig secret options

end WV

namespace WV

/-! ## Helper lemmas about the string primitives -/

theorem jsSplitChar_ne_nil (sep : Char) (s : List Char) : jsSplitChar sep s ≠ [] := by
  induction s with
  | nil => simp [jsSplitChar]
  | cons c rest ih =>
    simp only [jsSplitChar]
    split <;> split <;> simp

theorem jsSplitChar_of_not_mem {sep : Char} {s : List Char} (h : sep ∉ s) :
    jsSplitChar sep s = [s] := by
  induction s with
  | nil => rfl
  | cons c rest ih =>
    have hc : ¬ c = sep := fun e => h (e ▸ List.mem_cons_self c rest)
    have hr : sep ∉ rest := fun m => h (List.mem_cons_of_mem _ m)
    simp only [jsSplitChar, ih hr, if_neg hc]

theorem jsSplitChar_append {sep : Char} {a b : List Char} (h : sep ∉ a) :
    jsSplitChar sep (a ++ sep :: b) = a :: jsSplitChar sep b := by
  induction a with
  | nil =>
    simp only [List.nil_append, jsSplitChar]
    cases hb : jsSplitChar sep b with
    | nil => exact absurd hb (jsSplitChar_ne_nil sep b)
    | cons x t => simp
  | cons c arest ih =>
    have hc : ¬ c = sep := fun e => h (e ▸ List.mem_cons_self c arest)
    have hr : sep ∉ arest := fun m => h (List.mem_cons_of_mem _ m)
    simp only [List.cons_append, jsSplitChar, if_neg hc]
    rw [show arest.append (sep :: b) = arest ++ sep :: b from rfl, ih hr]

theorem jsToLower_nil_iff {s : List Char} : jsToLower s = [] ↔ s = [] := by
  simp [jsToLower]

theorem jsTrim_of_no_ws {s : List Char} (h : ∀ c ∈ s, isJsWs c = false) : jsTrim s = s := by
  have h1 : s.dropWhile isJsWs = s := by
    cases hs : s with
    | nil => rfl
    | cons a t =>
      have ha : isJsWs a = false := h a (by rw [hs]; exact List.mem_cons_self a t)
      simp [List.dropWhile_cons, ha]
  unfold jsTrim
  rw [h1]
  have h2 : s.reverse.dropWhile isJsWs = s.reverse := by
    cases hs : s.reverse with
    | nil => rfl
    | cons a t =>
      have ha : a ∈ s := by rw [← List.mem_reverse, hs]; exact List.mem_cons_self a t
      simp [List.dropWhile_cons, h a ha]
  rw [h2, List.reverse_reverse]

end WV

namespace WV

/-! ## Token constructions and parse lemmas -/

/-- A Stripe signature header `t=<ts>,v1=<c1>,v1=<c2>,...`. -/
def mkStripeToken (ts : List Char) (cs : List (List Char)) : List Char :=
  s2c "t=" ++ ts ++ cs.flatMap fun c => s2c ",v1=" ++ c

/-- Comma-join of token parts. -/
def joinComma : List (List Char) → List Char
  | [] => []
  | x :: xs => x ++ xs.flatMap fun c => ',' :: c

/-- A Svix signature token `v1,<c1>,v1,<c2>,...,t=<ts>,id=<id>`. -/
def mkSvixToken (cs : List (List Char)) (ts id : List Char) : List Char :=
  joinComma ((cs.flatMap fun c => [s2c "v1", c]) ++ [s2c "t=" ++ ts, s2c "id=" ++ id])

theorem jsSplitChar_joinComma {l : List (List Char)} (hne : l ≠ [])
    (h : ∀ x ∈ l, (',' : Char) ∉ x) :
    jsSplitChar ',' (joinComma l) = l := by
  induction l with
  | nil => exact absurd rfl hne
  | cons x xs ih =>
    cases xs with
    | nil =>
      simp only [joinComma, List.flatMap_nil, List.append_nil]
      exact jsSplitChar_of_not_mem (h x (List.mem_cons_self x []))
    | cons y ys =>
      have hx : (',' : Char) ∉ x := h x (List.mem_cons_self _ _)
      have hrest : ∀ z ∈ y :: ys, (',' : Char) ∉ z := fun z hz => h z (List.mem_cons_of_mem _ hz)
      have : joinComma (x :: y :: ys) = x ++ ',' :: joinComma (y :: ys) := by
        simp [joinComma, List.flatMap_cons]
      rw [this, jsSplitChar_append hx, ih (by simp) hrest]

theorem jsStartsWith_append (x y : List Char) : jsStartsWith (x ++ y) x = true := by
  rw [jsStartsWith, List.isPrefixOf_iff_prefix]
  exact List.prefix_append x y

theorem flatMap_v1_eq {cs : List (List Char)} :
    (cs.flatMap fun c => s2c ",v1=" ++ c) =
      (cs.map fun c => s2c "v1=" ++ c).flatMap fun c => ',' :: c := by
  induction cs with
  | nil => rfl
  | cons c cst ih => simp only [List.flatMap_cons, List.map_cons, ih]; rfl

theorem mkStripeToken_split {ts : List Char} {cs : List (List Char)}
    (hts : (',' : Char) ∉ ts) (hcs : ∀ c ∈ cs, (',' : Char) ∉ c) :
    jsSplitChar ',' (mkStripeToken ts cs) =
      (s2c "t=" ++ ts) :: cs.map fun c => s2c "v1=" ++ c := by
  have h1 : mkStripeToken ts cs =
      joinComma ((s2c "t=" ++ ts) :: cs.map fun c => s2c "v1=" ++ c) := by
    simp only [mkStripeToken, joinComma, flatMap_v1_eq, List.append_assoc]
  rw [h1]
  apply jsSplitChar_joinComma (by simp)
  intro x hx
  rcases List.mem_cons.mp hx with h | h
  · subst h
    intro hmem
    rcases List.mem_append.mp hmem with h | h
    · simp [s2c] at h
    · exact hts h
  · rcases List.mem_map.mp h with ⟨c, hc, rfl⟩
    intro hmem
    rcases List.mem_append.mp hmem with h | h
    · simp [s2c] at h
    · exact hcs c hc h

theorem stripeParseParts_candidates {cs : List (List Char)}
    (hcs : ∀ c ∈ cs, ('=' : Char) ∉ c) :
    ∀ t0 sigs0, stripeParseParts (cs.map fun c => s2c "v1=" ++ c) t0 sigs0
      = (t0, sigs0 ++ cs.map some) := by
  induction cs with
  | nil => intro t0 sigs0; simp [stripeParseParts]
  | cons c cst ih =>
    intro t0 sigs0
    have hc : ('=' : Char) ∉ c := hcs c (List.mem_cons_self _ _)
    have hrest : ∀ x ∈ cst, ('=' : Char) ∉ x := fun x hx => hcs x (List.mem_cons_of_mem _ hx)
    have hsplit : jsSplitChar '=' (s2c "v1=" ++ c) = [s2c "v1", c] := by
      have : s2c "v1=" ++ c = s2c "v1" ++ '=' :: c := rfl
      rw [this, jsSplitChar_append (by decide), jsSplitChar_of_not_mem hc]
    simp only [List.map_cons, stripeParseParts, hsplit, List.headD_cons, if_true]
    simp [ih hrest, List.append_assoc]
    decide

theorem stripeParseParts_mk {ts : List Char} {cs : List (List Char)}
    (hts : ('=' : Char) ∉ ts) (hcs : ∀ c ∈ cs, ('=' : Char) ∉ c) :
    stripeParseParts ((s2c "t=" ++ ts) :: cs.map fun c => s2c "v1=" ++ c) none []
      = (some ts, cs.map some) := by
  have hsplit : jsSplitChar '=' (s2c "t=" ++ ts) = [s2c "t", ts] := by
    have : s2c "t=" ++ ts = s2c "t" ++ '=' :: ts := rfl
    rw [this, jsSplitChar_append (by decide), jsSplitChar_of_not_mem hts]
  simp only [stripeParseParts, hsplit, List.headD_cons, if_true]
  simp [stripeParseParts_candidates hcs]

theorem stripeCheckSigs_map_some (expected : List Char) (cs : List (List Char)) :
    stripeCheckSigs expected (cs.map some) =
      .ok (cs.any fun c => secureCompare expected (jsToLower c)) := by
  induction cs with
  | nil => rfl
  | cons c cst ih =>
    simp only [List.map_cons, stripeCheckSigs, List.any_cons]
    by_cases h : secureCompare expected (jsToLower c) <;> simp [h, ih]

theorem drop2_tpart (ts : List Char) : (s2c "t=" ++ ts).drop 2 = ts := rfl

theorem drop3_idpart (id : List Char) : (s2c "id=" ++ id).drop 3 = id := rfl

theorem idpart_not_tstart (id : List Char) :
    jsStartsWith (s2c "id=" ++ id) (s2c "t=") = false := by
  simp [jsStartsWith, s2c, List.isPrefixOf]

theorem svixParse_mk {cs : List (List Char)} {ts id : List Char}
    (hcs : ∀ c ∈ cs, jsTrim c = c)
    (hts : jsTrim (s2c "t=" ++ ts) = s2c "t=" ++ ts)
    (hid : jsTrim (s2c "id=" ++ id) = s2c "id=" ++ id)
    (hneq : s2c "t=" ++ ts ≠ s2c "v1") (hneq2 : s2c "id=" ++ id ≠ s2c "v1") :
    ∀ sigs0 t0 i0,
      svixParse ((cs.flatMap fun c => [s2c "v1", c]) ++ [s2c "t=" ++ ts, s2c "id=" ++ id]) sigs0 t0 i0
        = (sigs0 ++ cs, some ts, some id) := by
  induction cs with
  | nil =>
    intro sigs0 t0 i0
    have hstep1 : svixParseStep (s2c "t=" ++ ts) (sigs0, t0, i0) = (sigs0, some ts, i0) := by
      simp [svixParseStep, jsStartsWith_append, drop2_tpart]
    have hstep2 : svixParseStep (s2c "id=" ++ id) (sigs0, some ts, i0) = (sigs0, some ts, some id) := by
      simp [svixParseStep, idpart_not_tstart, jsStartsWith_append, drop3_idpart]
    simp only [List.flatMap_nil, List.nil_append, svixParse, hts, hid]
    rw [if_neg hneq, hstep1, hstep2]
    simp
  | cons c cst ih =>
    intro sigs0 t0 i0
    have hc : jsTrim c = c := hcs c (List.mem_cons_self _ _)
    have hrest : ∀ x ∈ cst, jsTrim x = x := fun x hx => hcs x (List.mem_cons_of_mem _ hx)
    have hv1 : jsTrim (s2c "v1") = s2c "v1" := by decide
    simp only [List.flatMap_cons, List.cons_append, List.nil_append, svixParse, hv1, hc,
      eq_self_iff_true, if_true]
    exact (ih hrest (sigs0 ++ [c]) t0 i0).trans (by simp)

end WV

namespace WV

/-! ## JWT construction lemmas -/

theorem b64UrlAlphabet_getD_ne_dot (i : Nat) : b64UrlAlphabet.getD i 'A' ≠ '.' := by
  by_cases h : i < b64UrlAlphabet.length
  · rw [List.getD_eq_getElem _ _ h]
    have hmem : b64UrlAlphabet[i] ∈ b64UrlAlphabet := List.getElem_mem h
    have hall : ∀ c ∈ b64UrlAlphabet, c ≠ ('.' : Char) := by decide
    exact hall _ hmem
  · rw [List.getD_eq_default _ _ (Nat.le_of_not_lt h)]
    decide

theorem dot_not_mem_b64UrlEncode : ∀ (n : Nat) (bs : List Nat), bs.length ≤ n →
    ('.' : Char) ∉ base64UrlEncode bs := by
  intro n
  induction n with
  | zero =>
    intro bs h
    have : bs = [] := List.eq_nil_of_length_eq_zero (Nat.le_zero.mp h)
    subst this
    simp [base64UrlEncode]
  | succ n ih =>
    intro bs h
    rcases bs with _ | ⟨b1, _ | ⟨b2, _ | ⟨b3, rest⟩⟩⟩
    · simp [base64UrlEncode]
    · simp only [base64UrlEncode, List.mem_cons, List.not_mem_nil, or_false]
      rintro (h1 | h1) <;> exact b64UrlAlphabet_getD_ne_dot _ h1.symm
    · simp only [base64UrlEncode, List.mem_cons, List.not_mem_nil, or_false]
      rintro (h1 | h1 | h1) <;> exact b64UrlAlphabet_getD_ne_dot _ h1.symm
    · simp only [base64UrlEncode, List.cons_append, List.nil_append, List.mem_cons]
      rintro (h1 | h1 | h1 | h1 | h1)
      · exact b64UrlAlphabet_getD_ne_dot _ h1.symm
      · exact b64UrlAlphabet_getD_ne_dot _ h1.symm
      · exact b64UrlAlphabet_getD_ne_dot _ h1.symm
      · exact b64UrlAlphabet_getD_ne_dot _ h1.symm
      · exact ih rest (by simp at h; omega) h1

theorem dot_not_mem_b64UrlEncode' (bs : List Nat) : ('.' : Char) ∉ base64UrlEncode bs :=
  dot_not_mem_b64UrlEncode bs.length bs le_rfl

/-- A JWT whose third segment is the correct HMAC-SHA256 base64url
signature of `header.payload` verifies, and `verifyJwt` returns the
`JSON.parse` of the base64url-decoded payload segment. -/
theorem verifyJwt_mk (hB64 pB64 secret : List Char)
    (hh : ('.' : Char) ∉ hB64) (hp : ('.' : Char) ∉ pB64) :
    verifyJwt
      (hB64 ++ '.' :: (pB64 ++ '.' ::
        base64UrlEncode (hmacBytes .sha256 (utf8 secret) (utf8 (hB64 ++ s2c "." ++ pB64)))))
      secret
      = jsonParse (base64UrlDecodeJS pB64) := by
  have hsig := dot_not_mem_b64UrlEncode'
    (hmacBytes .sha256 (utf8 secret) (utf8 (hB64 ++ s2c "." ++ pB64)))
  unfold verifyJwt
  rw [jsSplitChar_append hh, jsSplitChar_append hp, jsSplitChar_of_not_mem hsig]
  have harr : hB64 ++ s2c "." ++ pB64 = hB64 ++ '.' :: pB64 := by
    simp [s2c, List.append_assoc]
  simp [harr]

end WV

namespace WV

/-! ## Claim C5 -/

/-- C5: the timestamp freshness check (`isTimestampValid`, exposed as
`validateTimestamp`, default tolerance 300 s) parses an integer Unix
timestamp in seconds from a string or numeric input, returns `false` for
non-positive or unparsable values, and otherwise returns `true` exactly
when `|now - timestamp| ≤ tolerance`; the boundary is inclusive:
`timestamp = now - tolerance` is accepted and `now - tolerance - 1` is
rejected. -/
theorem claim_C5_timestamp_freshness :
    (∀ (nowMs tol : Int) (s : List Char), jsParseInt s = none →
       isTimestampValid nowMs (.inl s) tol = false) ∧
    (∀ (nowMs tol : Int) (s : List Char) (t : Int), jsParseInt s = some t → t ≤ 0 →
       isTimestampValid nowMs (.inl s) tol = false) ∧
    (∀ (nowMs tol n : Int), n ≤ 0 → isTimestampValid nowMs (.inr n) tol = false) ∧
    (∀ (nowMs tol : Int) (s : List Char) (t : Int), jsParseInt s = some t → 0 < t →
       (isTimestampValid nowMs (.inl s) tol = true ↔ |Int.fdiv nowMs 1000 - t| ≤ tol)) ∧
    (∀ (nowMs tol n : Int), 0 < n →
       (isTimestampValid nowMs (.inr n) tol = true ↔ |Int.fdiv nowMs 1000 - n| ≤ tol)) ∧
    (∀ (nowMs : Int) (ts : List Char ⊕ Int),
       validateTimestamp nowMs ts = isTimestampValid nowMs ts 300) ∧
    (∀ (nowMs tol : Int), 0 ≤ tol → 0 < Int.fdiv nowMs 1000 - tol →
       isTimestampValid nowMs (.inr (Int.fdiv nowMs 1000 - tol)) tol = true ∧
       isTimestampValid nowMs (.inr (Int.fdiv nowMs 1000 - tol - 1)) tol = false) := by
  refine ⟨?_, ?_, ?_, ?_, ?_, ?_, ?_⟩
  · intro nowMs tol s h; simp [isTimestampValid, h]
  · intro nowMs tol s t h ht; simp [isTimestampValid, h, ht]
  · intro nowMs tol n hn; simp [isTimestampValid, hn]
  · intro nowMs tol s t h ht
    simp [isTimestampValid, h, not_le.mpr ht]
  · intro nowMs tol n hn
    simp [isTimestampValid, not_le.mpr hn]
  · intro nowMs ts; rfl
  · intro nowMs tol htol hpos
    constructor
    · have e1 : Int.fdiv nowMs 1000 - (Int.fdiv nowMs 1000 - tol) = tol := by ring
      have hnp : ¬ (Int.fdiv nowMs 1000 - tol ≤ 0) := by omega
      simp [isTimestampValid, hnp, e1, abs_of_nonneg htol]
    · by_cases hz : Int.fdiv nowMs 1000 - tol - 1 ≤ 0
      · simp [isTimestampValid, hz]
      · have e2 : Int.fdiv nowMs 1000 - (Int.fdiv nowMs 1000 - tol - 1) = tol + 1 := by ring
        simp [isTimestampValid, hz, e2, abs_of_nonneg (by omega : (0:Int) ≤ tol + 1)]

/-- C5 witness: at `nowMs = 1000000` (so `now = 1000`) with the default
tolerance 300, the timestamp 700 is accepted and 699 rejected. -/
theorem claim_C5_timestamp_freshness_witness :
    isTimestampValid 1000000 (.inr 700) 300 = true ∧
    isTimestampValid 1000000 (.inr 699) 300 = false := by
  have h := claim_C5_timestamp_freshness.2.2.2.2.2.2 1000000 300 (by decide) (by decide)
  exact ⟨h.1, h.2⟩

/-! ## Claim C7 -/

/-- C7 counterexample: the claim quantifies over **every** non-empty
secret, including `secret = "wrong-token"` itself, where
`verify('gitlab', '', 'wrong-token', secret)` is `true`, not `false`. -/
theorem claim_C7_counterexample :
    verifyTok noOracles 0 .gitlab [] (s2c "wrong-token") (s2c "wrong-token") {} = .ok true := by
  decide

/-- C7 (amended): for every non-empty secret,
`verify('gitlab', '', secret, secret) = true`; for every non-empty secret
**other than `'wrong-token'` itself**,
`verify('gitlab', '', 'wrong-token', secret) = false`; the GitLab scheme
is a direct string comparison of the bare token against the secret and its
result does not depend on the payload. -/
theorem claim_C7_gitlab_token_equality :
    (∀ (O : CryptoOracles) (nowMs : Int) (p k : List Char) (opts : VerifyOptions), k ≠ [] →
       verifyTok O nowMs .gitlab p k k opts = .ok true) ∧
    (∀ (O : CryptoOracles) (nowMs : Int) (p k : List Char) (opts : VerifyOptions),
       k ≠ [] → k ≠ s2c "wrong-token" →
       verifyTok O nowMs .gitlab p (s2c "wrong-token") k opts = .ok false) ∧
    (∀ (O : CryptoOracles) (nowMs : Int) (p p' s k : List Char) (opts : VerifyOptions),
       verifyTok O nowMs .gitlab p s k opts = verifyTok O nowMs .gitlab p' s k opts) := by
  refine ⟨?_, ?_, ?_⟩
  · intro O nowMs p k opts hk
    simp [verifyTok, gitlabVerify, secureCompare, hk]
  · intro O nowMs p k opts hk hk2
    have : ¬ (s2c "wrong-token" = k) := fun e => hk2 e.symm
    simp [verifyTok, gitlabVerify, secureCompare, hk, this]
  · intro O nowMs p p' s k opts; rfl

/-- C7 witness: concrete secret `"s3cret"`. -/
theorem claim_C7_gitlab_token_equality_witness :
    verifyTok noOracles 0 .gitlab [] (s2c "s3cret") (s2c "s3cret") {} = .ok true ∧
    verifyTok noOracles 0 .gitlab [] (s2c "wrong-token") (s2c "s3cret") {} = .ok false :=
  ⟨claim_C7_gitlab_token_equality.1 noOracles 0 [] (s2c "s3cret") {} (by decide),
   claim_C7_gitlab_token_equality.2.1 noOracles 0 [] (s2c "s3cret") {} (by decide) (by decide)⟩

end WV

namespace WV

/-! ## Claim C1 -/

/-- C1 counterexample: GitLab's verifier never looks at the payload, so an
empty payload with `signature = secret ≠ ''` verifies `true`, not `false`,
refuting "missing/empty payload … returns false" as universally stated. -/
theorem claim_C1_counterexample :
    verifyTok noOracles 0 .gitlab [] (s2c "x") (s2c "x") {} = .ok true := by
  decide

/-- C1 (amended): for every provider other than GitLab and Crystallize, an
empty payload, signature token, or secret makes `verify` return `false`
(wrapped `.ok`, i.e. no exception).  GitLab returns `false` on an empty
signature or secret but ignores the payload entirely.  Crystallize throws
whenever `options.url` is absent, regardless of the other arguments; with
a non-empty `url` it returns `false` for an empty signature token. -/
theorem claim_C1_empty_inputs :
    (∀ (O : CryptoOracles) (nowMs : Int) (prov : Provider) (p s k : List Char)
       (opts : VerifyOptions), prov ≠ .crystallize → prov ≠ .gitlab →
       p = [] ∨ s = [] ∨ k = [] → verifyTok O nowMs prov p s k opts = .ok false) ∧
    (∀ (O : CryptoOracles) (nowMs : Int) (p s k : List Char) (opts : VerifyOptions),
       s = [] ∨ k = [] → verifyTok O nowMs .gitlab p s k opts = .ok false) ∧
    (∀ (O : CryptoOracles) (nowMs : Int) (p p' s k : List Char) (opts : VerifyOptions),
       verifyTok O nowMs .gitlab p s k opts = verifyTok O nowMs .gitlab p' s k opts) ∧
    (∀ (O : CryptoOracles) (nowMs : Int) (p s k : List Char)
       (tl : Option Int) (mth : Option (List Char)) (ads : Option (List (List Char))),
       verifyTok O nowMs .crystallize p s k ⟨tl, none, mth, ads⟩ =
         .error (s2c "Crystallize verification requires url option")) ∧
    (∀ (O : CryptoOracles) (nowMs : Int) (p k u : List Char)
       (tl : Option Int) (mth : Option (List Char)) (ads : Option (List (List Char))),
       u ≠ [] →
       verifyTok O nowMs .crystallize p [] k ⟨tl, some u, mth, ads⟩ = .ok false) := by
  refine ⟨?_, ?_, ?_, ?_, ?_⟩
  · intro O nowMs prov p s k opts h1 h2 h3
    cases prov <;>
      first
        | exact absurd rfl h1
        | exact absurd rfl h2
        | simp only [verifyTok, githubVerify, typeformVerify, intercomVerify, shopifyVerify,
            mailchimpVerify, linearVerify, vercelVerify, segmentVerify, stripeVerify,
            slackVerify, svixVerify, clerkVerify, zendeskVerify, squareVerify, hubspotVerify,
            twilioVerify, discordVerify, sendgridVerify, paddleVerify, if_pos h3]
  · intro O nowMs p s k opts h
    simp only [verifyTok, gitlabVerify, if_pos h]
  · intro O nowMs p p' s k opts; rfl
  · intro O nowMs p s k tl mth ads; rfl
  · intro O nowMs p k u tl mth ads hu
    simp [verifyTok, crystallizeVerify, verifyJwt, jsSplitChar, hu]

/-- C1 witness: the amended statement at concrete inputs. -/
theorem claim_C1_empty_inputs_witness :
    verifyTok noOracles 0 .github [] [] [] {} = .ok false ∧
    verifyTok noOracles 0 .gitlab (s2c "p") [] [] {} = .ok false ∧
    verifyTok noOracles 0 .crystallize (s2c "p") [] (s2c "k")
      ⟨none, some (s2c "u"), none, none⟩ = .ok false :=
  ⟨claim_C1_empty_inputs.1 noOracles 0 .github [] [] [] {} (by decide) (by decide) (Or.inl rfl),
   claim_C1_empty_inputs.2.1 noOracles 0 (s2c "p") [] [] {} (Or.inl rfl),
   claim_C1_empty_inputs.2.2.2.2 noOracles 0 (s2c "p") (s2c "k") (s2c "u") none none none
     (by decide)⟩

/-! ## Claim C2 -/

/-- C2: with `options.url` absent, Twilio, Square and HubSpot return
`false` for every input, but Crystallize **throws**
(`Error('Crystallize verification requires url option')`) instead of
returning `false` — the code-bug side of the claim. -/
theorem claim_C2_missing_url :
    (∀ (O : CryptoOracles) (nowMs : Int) (p s k : List Char)
       (tl : Option Int) (mth : Option (List Char)) (ads : Option (List (List Char))),
       verifyTok O nowMs .twilio p s k ⟨tl, none, mth, ads⟩ = .ok false) ∧
    (∀ (O : CryptoOracles) (nowMs : Int) (p s k : List Char)
       (tl : Option Int) (mth : Option (List Char)) (ads : Option (List (List Char))),
       verifyTok O nowMs .square p s k ⟨tl, none, mth, ads⟩ = .ok false) ∧
    (∀ (O : CryptoOracles) (nowMs : Int) (p s k : List Char)
       (tl : Option Int) (mth : Option (List Char)) (ads : Option (List (List Char))),
       verifyTok O nowMs .hubspot p s k ⟨tl, none, mth, ads⟩ = .ok false) ∧
    (∀ (O : CryptoOracles) (nowMs : Int) (p s k : List Char)
       (tl : Option Int) (mth : Option (List Char)) (ads : Option (List (List Char))),
       verifyTok O nowMs .crystallize p s k ⟨tl, none, mth, ads⟩ =
         .error (s2c "Crystallize verification requires url option")) := by
  refine ⟨?_, ?_, ?_, ?_⟩
  · intro O nowMs p s k tl mth ads
    simp only [verifyTok, twilioVerify]
    split <;> rfl
  · intro O nowMs p s k tl mth ads
    simp only [verifyTok, squareVerify]
    split <;> rfl
  · intro O nowMs p s k tl mth ads
    simp only [verifyTok, hubspotVerify]
    split
    · rfl
    · split <;> rfl
  · intro O nowMs p s k tl mth ads; rfl

/-! ## Claim C3 -/

/-- C3: `additionalSecrets` is documented but inert — no verifier consults
it.  With primary secret `"old-secret"` and
`additionalSecrets = ["new-secret"]`, a GitLab token equal to
`"new-secret"` is **rejected** (the README documents it would be
accepted); indeed GitLab's result does not depend on the options at all. -/
theorem claim_C3_additionalSecrets_inert :
    verifyTok noOracles 0 .gitlab [] (s2c "new-secret") (s2c "old-secret")
      ⟨none, none, none, some [s2c "new-secret"]⟩ = .ok false ∧
    (∀ (O : CryptoOracles) (nowMs : Int) (p s k : List Char) (opts opts' : VerifyOptions),
       verifyTok O nowMs .gitlab p s k opts = verifyTok O nowMs .gitlab p s k opts') := by
  constructor
  · decide
  · intro O nowMs p s k opts opts'; rfl

end WV

namespace WV

/-! ## Constructed-token characterizations for Stripe and Svix -/

theorem isDigit_ne_comma {c : Char} (h : c.isDigit = true) : c ≠ ',' := by
  intro e; subst e; simp at h

theorem isDigit_ne_eq {c : Char} (h : c.isDigit = true) : c ≠ '=' := by
  intro e; subst e; simp at h

theorem isDigit_not_ws {c : Char} (h : c.isDigit = true) : isJsWs c = false := by
  revert h
  simp only [Char.isDigit, isJsWs]
  intro h
  simp only [decide_eq_false_iff_not]
  rintro (e | e | e | e) <;> subst e <;> simp_all

/-- `stripe.verify` on a well-formed constructed token
`t=<ts>,v1=<c1>,v1=<c2>,...`. -/
theorem stripeVerify_mkToken (nowMs : Int) (p k ts : List Char) (cs : List (List Char))
    (tl : Option Int) (hp : p ≠ []) (hk : k ≠ [])
    (hts : ts ≠ []) (hdig : ∀ c ∈ ts, c.isDigit)
    (hcs : ∀ c ∈ cs, (',' : Char) ∉ c ∧ ('=' : Char) ∉ c) :
    stripeVerify nowMs p (mkStripeToken ts cs) k ⟨tl, none, none, none⟩ =
      if cs = [] then .ok false
      else if isTimestampValid nowMs (.inl ts) (tl.getD 300) then
        .ok (cs.any fun c =>
          secureCompare (computeHmacHexS .sha256 k (ts ++ s2c "." ++ p)) (jsToLower c))
      else .ok false := by
  have htok : mkStripeToken ts cs ≠ [] := by simp [mkStripeToken, s2c]
  have hsplit := mkStripeToken_split
    (fun hmem => isDigit_ne_comma (hdig _ hmem) rfl)
    (fun c hc => (hcs c hc).1)
  have hparse := @stripeParseParts_mk ts cs
    (fun hmem => isDigit_ne_eq (hdig _ hmem) rfl)
    (fun c hc => (hcs c hc).2)
  simp only [stripeVerify, hsplit, hparse]
  rw [if_neg (by simp [hp, htok, hk])]
  simp only [undefOrEmpty, hts]
  by_cases hcs0 : cs = []
  · subst hcs0
    simp
  · simp [hcs0, stripeCheckSigs_map_some]
    cases h : isTimestampValid nowMs (Sum.inl ts) (tl.getD 300) <;> simp [h]

end WV

namespace WV

/-- `svix.verify` on a well-formed constructed token
`v1,<c1>,v1,<c2>,...,t=<ts>,id=<id>`. -/
theorem svixVerify_mkToken (nowMs : Int) (p k ts id : List Char) (cs : List (List Char))
    (tl : Option Int) (hp : p ≠ []) (hk : k ≠ [])
    (hts : ts ≠ []) (hdig : ∀ c ∈ ts, c.isDigit)
    (hid : id ≠ []) (hidc : ∀ c ∈ id, isJsWs c = false ∧ c ≠ ',')
    (hcs : ∀ c ∈ cs, jsTrim c = c ∧ (',' : Char) ∉ c) :
    svixVerify nowMs p (mkSvixToken cs ts id) k ⟨tl, none, none, none⟩ =
      if cs = [] then false
      else if isTimestampValid nowMs (.inl ts) (tl.getD 300) then
        cs.any fun c => secureCompare
          (base64Encode (hmacBytes .sha256 (svixSecretKey k)
            (utf8 (id ++ s2c "." ++ ts ++ s2c "." ++ p)))) c
      else false := by
  have htok : mkSvixToken cs ts id ≠ [] := by
    cases cs <;> simp [mkSvixToken, joinComma, s2c]
  have htst : jsTrim (s2c "t=" ++ ts) = s2c "t=" ++ ts := by
    apply jsTrim_of_no_ws
    intro c hc
    rcases List.mem_append.mp hc with h | h
    · simp [s2c] at h
      rcases h with rfl | rfl <;> decide
    · exact isDigit_not_ws (hdig c h)
  have hidt : jsTrim (s2c "id=" ++ id) = s2c "id=" ++ id := by
    apply jsTrim_of_no_ws
    intro c hc
    rcases List.mem_append.mp hc with h | h
    · simp [s2c] at h
      rcases h with rfl | rfl | rfl <;> decide
    · exact (hidc c h).1
  have hneq : s2c "t=" ++ ts ≠ s2c "v1" := by simp [s2c]
  have hneq2 : s2c "id=" ++ id ≠ s2c "v1" := by simp [s2c]
  have hsplit : jsSplitChar ',' (mkSvixToken cs ts id) =
      (cs.flatMap fun c => [s2c "v1", c]) ++ [s2c "t=" ++ ts, s2c "id=" ++ id] := by
    apply jsSplitChar_joinComma (by simp)
    intro x hx
    rcases List.mem_append.mp hx with h | h
    · rcases List.mem_flatMap.mp h with ⟨c, hc, hx2⟩
      simp only [List.mem_cons, List.not_mem_nil, or_false] at hx2
      rcases hx2 with rfl | rfl
      · decide
      · exact (hcs _ hc).2
    · simp only [List.mem_cons, List.not_mem_nil, or_false] at h
      rcases h with rfl | rfl
      · intro hmem
        rcases List.mem_append.mp hmem with h | h
        · simp [s2c] at h
        · exact isDigit_ne_comma (hdig _ h) rfl
      · intro hmem
        rcases List.mem_append.mp hmem with h | h
        · simp [s2c] at h
        · exact (hidc _ h).2 rfl
  have hparse := @svixParse_mk cs ts id
    (fun c hc => (hcs c hc).1) htst hidt hneq hneq2 [] none none
  simp only [svixVerify, hsplit, hparse]
  rw [if_neg (by simp [hp, htok, hk])]
  simp only [undefOrEmpty, hts, hid, List.nil_append]
  by_cases hcs0 : cs = []
  · subst hcs0
    simp
  · cases h : isTimestampValid nowMs (Sum.inl ts) (tl.getD 300) <;> simp [h, hcs0]

end WV

namespace WV

/-! ## Claim C6 -/

/-- C6: when a provider's token grammar admits multiple candidate
signatures, any single matching candidate suffices.  A Stripe token
`t=<ts>,v1=<c1>,v1=<c2>,...` with a fresh timestamp verifies `true` iff
some `v1` candidate equals (after lower-casing) the hex HMAC-SHA256 of
`"<ts>.<payload>"` under the secret; a Svix token with several `v1,<c>`
candidates verifies `true` iff some candidate equals the base64
HMAC-SHA256 of `"<id>.<ts>.<payload>"` under the decoded secret; all
candidates invalid yields `false`. -/
theorem claim_C6_multi_candidate :
    (∀ (nowMs : Int) (p k ts : List Char) (cs : List (List Char)) (tl : Option Int),
       p ≠ [] → k ≠ [] → ts ≠ [] → (∀ c ∈ ts, c.isDigit) →
       (∀ c ∈ cs, (',' : Char) ∉ c ∧ ('=' : Char) ∉ c) →
       isTimestampValid nowMs (.inl ts) (tl.getD 300) = true →
       ((∃ c ∈ cs, jsToLower c = computeHmacHexS .sha256 k (ts ++ s2c "." ++ p)) →
          stripeVerify nowMs p (mkStripeToken ts cs) k ⟨tl, none, none, none⟩ = .ok true) ∧
       ((∀ c ∈ cs, jsToLower c ≠ computeHmacHexS .sha256 k (ts ++ s2c "." ++ p)) →
          stripeVerify nowMs p (mkStripeToken ts cs) k ⟨tl, none, none, none⟩ = .ok false)) ∧
    (∀ (nowMs : Int) (p k ts id : List Char) (cs : List (List Char)) (tl : Option Int),
       p ≠ [] → k ≠ [] → ts ≠ [] → (∀ c ∈ ts, c.isDigit) →
       id ≠ [] → (∀ c ∈ id, isJsWs c = false ∧ c ≠ ',') →
       (∀ c ∈ cs, jsTrim c = c ∧ (',' : Char) ∉ c) →
       isTimestampValid nowMs (.inl ts) (tl.getD 300) = true →
       ((∃ c ∈ cs, c = base64Encode (hmacBytes .sha256 (svixSecretKey k)
            (utf8 (id ++ s2c "." ++ ts ++ s2c "." ++ p)))) →
          svixVerify nowMs p (mkSvixToken cs ts id) k ⟨tl, none, none, none⟩ = true) ∧
       ((∀ c ∈ cs, c ≠ base64Encode (hmacBytes .sha256 (svixSecretKey k)
            (utf8 (id ++ s2c "." ++ ts ++ s2c "." ++ p)))) →
          svixVerify nowMs p (mkSvixToken cs ts id) k ⟨tl, none, none, none⟩ = false)) := by
  constructor
  · intro nowMs p k ts cs tl hp hk hts hdig hcs hfresh
    rw [stripeVerify_mkToken nowMs p k ts cs tl hp hk hts hdig hcs]
    generalize computeHmacHexS HashAlg.sha256 k (ts ++ s2c "." ++ p) = E
    constructor
    · rintro ⟨c, hc, hceq⟩
      have hcs0 : cs ≠ [] := by rintro rfl; simp at hc
      rw [if_neg hcs0, if_pos hfresh]
      congr 1
      rw [List.any_eq_true]
      exact ⟨c, hc, by simp [secureCompare, hceq]⟩
    · intro hall
      by_cases hcs0 : cs = []
      · rw [if_pos hcs0]
      · rw [if_neg hcs0, if_pos hfresh]
        congr 1
        rw [List.any_eq_false]
        intro c hc
        simp [secureCompare]
        exact fun e => hall c hc e.symm
  · intro nowMs p k ts id cs tl hp hk hts hdig hid hidc hcs hfresh
    rw [svixVerify_mkToken nowMs p k ts id cs tl hp hk hts hdig hid hidc hcs]
    generalize base64Encode (hmacBytes HashAlg.sha256 (svixSecretKey k)
      (utf8 (id ++ s2c "." ++ ts ++ s2c "." ++ p))) = E
    constructor
    · rintro ⟨c, hc, hceq⟩
      have hcs0 : cs ≠ [] := by rintro rfl; simp at hc
      rw [if_neg hcs0, if_pos hfresh]
      rw [List.any_eq_true]
      exact ⟨c, hc, by simp [secureCompare, hceq]⟩
    · intro hall
      by_cases hcs0 : cs = []
      · rw [if_pos hcs0]
      · rw [if_neg hcs0, if_pos hfresh]
        rw [List.any_eq_false]
        intro c hc
        simp [secureCompare]
        exact fun e => hall c hc e.symm

/-- C6 witness: one valid candidate among invalid ones verifies `true`
for Stripe and for Svix, at `now = 1000` s with timestamp `1000`. -/
theorem claim_C6_multi_candidate_witness :
    stripeVerify 1000000 (s2c "pay")
      (mkStripeToken (s2c "1000")
        [s2c "deadbeef",
         s2c "324baa3873eae9a94b3df06d2a16a9ad6c0afc0205c2f816c56f8ddbbc0da0f5"])
      (s2c "sec") ⟨none, none, none, none⟩ = .ok true ∧
    svixVerify 1000000 (s2c "pay")
      (mkSvixToken
        [s2c "invalidsig", s2c "6O9G5b3tAkoQtsXZ71u6EZeJcIEzP/3u6dsl6u32SGc="]
        (s2c "1000") (s2c "id1"))
      (s2c "whsec_aw==") ⟨none, none, none, none⟩ = true := by
  constructor
  · exact (claim_C6_multi_candidate.1 1000000 (s2c "pay") (s2c "sec") (s2c "1000")
      [s2c "deadbeef",
       s2c "324baa3873eae9a94b3df06d2a16a9ad6c0afc0205c2f816c56f8ddbbc0da0f5"]
      none (by decide) (by decide) (by decide) (by decide) (by decide) (by decide)).1
      ⟨s2c "324baa3873eae9a94b3df06d2a16a9ad6c0afc0205c2f816c56f8ddbbc0da0f5",
       by decide, by decide⟩
  · exact (claim_C6_multi_candidate.2 1000000 (s2c "pay") (s2c "whsec_aw==") (s2c "1000")
      (s2c "id1")
      [s2c "invalidsig", s2c "6O9G5b3tAkoQtsXZ71u6EZeJcIEzP/3u6dsl6u32SGc="]
      none (by decide) (by decide) (by decide) (by decide) (by decide) (by decide)
      (by decide) (by decide)).1
      ⟨s2c "6O9G5b3tAkoQtsXZ71u6EZeJcIEzP/3u6dsl6u32SGc=", by decide, by decide⟩

end WV

namespace WV

/-! ## Claim C8 -/

theorem drop7_sha256 (h : List Char) : (s2c "sha256=" ++ h).drop 7 = h := rfl

theorem drop5_sha1 (h : List Char) : (s2c "sha1=" ++ h).drop 5 = h := rfl

/-- `slack.verify` on a constructed combined token `v0=<h>,t=<ts>`. -/
theorem slackVerify_mkToken (nowMs : Int) (p k h ts : List Char) (tl : Option Int)
    (hp : p ≠ []) (hk : k ≠ []) (hh0 : h ≠ [])
    (hdig : ∀ c ∈ ts, c.isDigit)
    (hh : (',' : Char) ∉ h ∧ ('=' : Char) ∉ h) :
    slackVerify nowMs p (s2c "v0=" ++ h ++ (s2c ",t=" ++ ts)) k ⟨tl, none, none, none⟩ =
      if ts = [] then false
      else if isTimestampValid nowMs (.inl ts) (tl.getD 300) then
        secureCompare (s2c "v0=" ++ computeHmacHexS .sha256 k (s2c "v0:" ++ (ts ++ (s2c ":" ++ p))))
          (s2c "v0=" ++ jsToLower h)
      else false := by
  have htokc : s2c "v0=" ++ h ++ (s2c ",t=" ++ ts) = (s2c "v0=" ++ h) ++ ',' :: (s2c "t=" ++ ts) := by
    simp [s2c, List.append_assoc]
  have hnocomma : (',' : Char) ∉ s2c "v0=" ++ h := by
    intro hmem
    rcases List.mem_append.mp hmem with hm | hm
    · simp [s2c] at hm
    · exact hh.1 hm
  have hnocomma2 : (',' : Char) ∉ s2c "t=" ++ ts := by
    intro hmem
    rcases List.mem_append.mp hmem with hm | hm
    · simp [s2c] at hm
    · exact isDigit_ne_comma (hdig _ hm) rfl
  have hsplit : jsSplitChar ',' (s2c "v0=" ++ h ++ (s2c ",t=" ++ ts)) =
      [s2c "v0=" ++ h, s2c "t=" ++ ts] := by
    rw [htokc, jsSplitChar_append hnocomma, jsSplitChar_of_not_mem hnocomma2]
  have hincl : jsIncludes (s2c "v0=" ++ h ++ (s2c ",t=" ++ ts)) ',' = true := by
    have hm : (',' : Char) ∈ s2c "v0=" ++ h ++ (s2c ",t=" ++ ts) := by
      rw [htokc]
      exact List.mem_append_right _ (List.mem_cons_self _ _)
    simpa [jsIncludes] using hm
  have hsplitv0 : jsSplitChar '=' (s2c "v0=" ++ h) = [s2c "v0", h] := by
    have e : s2c "v0=" ++ h = s2c "v0" ++ '=' :: h := rfl
    rw [e, jsSplitChar_append (by decide), jsSplitChar_of_not_mem hh.2]
  have hsplitt : jsSplitChar '=' (s2c "t=" ++ ts) = [s2c "t", ts] := by
    have e : s2c "t=" ++ ts = s2c "t" ++ '=' :: ts := rfl
    rw [e, jsSplitChar_append (by decide),
      jsSplitChar_of_not_mem (fun hm => isDigit_ne_eq (hdig _ hm) rfl)]
  have htokne : s2c "v0=" ++ h ++ (s2c ",t=" ++ ts) ≠ [] := by simp [s2c]
  simp only [slackVerify, hincl, if_true, hsplit, List.foldl_cons, List.foldl_nil,
    hsplitv0, hsplitt, List.headD_cons]
  rw [if_neg (by push_neg; exact ⟨hp, by simp [s2c], hk⟩)]
  simp only [List.getElem?_cons_succ, List.getElem?_cons_zero, Option.getD_some, undefOrEmpty]
  have hterm : ¬ (s2c "t" : List Char) = s2c "v0" := by decide
  by_cases hts0 : ts = []
  · simp [hts0, hterm]
  · by_cases hfr : isTimestampValid nowMs (.inl ts) (tl.getD 300) <;>
      simp [hts0, hh0, hfr, hterm, List.append_assoc]

end WV

namespace WV

/-- "The same token with some of its lower-case hex digits upper-cased":
characterwise, each position is unchanged or an `a`–`f` digit replaced by
its upper-case form. -/
def hexUpperVariant (t u : List Char) : Prop :=
  List.Forall₂ (fun a b => b = a ∨ (a ∈ s2c "abcdef" ∧ b = Char.ofNat (a.toNat - 32))) t u

theorem hexUpperVariant_toLower {t u : List Char} (h : hexUpperVariant t u) :
    jsToLower u = jsToLower t := by
  induction h with
  | nil => rfl
  | cons hab _ ih =>
    simp only [jsToLower, List.map_cons] at *
    rw [ih]
    rcases hab with rfl | ⟨hmem, rfl⟩
    · rfl
    · congr 1
      revert hmem
      simp only [s2c, List.mem_cons, List.not_mem_nil, or_false]
      rintro (rfl | rfl | rfl | rfl | rfl | rfl) <;> decide

/-- C8: hex signature comparison is case-insensitive.  For the bare-hex
providers (Vercel, Linear, Segment) the verification result depends on the
token only through its lower-casing; the same holds for the digest part of
prefixed GitHub/Intercom tokens, of Stripe `v1=` candidates, and of Slack
`v0=` signatures; and upper-casing hex digits (`hexUpperVariant`)
preserves the lower-casing, so an otherwise-valid lower-case hex signature
still verifies `true` after upper-casing its hex digits. -/
theorem claim_C8_hex_case_insensitive :
    (∀ t u : List Char, hexUpperVariant t u → jsToLower u = jsToLower t) ∧
    (∀ (p t u k : List Char), jsToLower t = jsToLower u →
       p ≠ [] → k ≠ [] → t ≠ [] → u ≠ [] →
       vercelVerify p t k = vercelVerify p u k ∧
       linearVerify p t k = linearVerify p u k ∧
       segmentVerify p t k = segmentVerify p u k) ∧
    (∀ (p h h' k : List Char), jsToLower h = jsToLower h' → p ≠ [] → k ≠ [] →
       githubVerify p (s2c "sha256=" ++ h) k = githubVerify p (s2c "sha256=" ++ h') k ∧
       intercomVerify p (s2c "sha1=" ++ h) k = intercomVerify p (s2c "sha1=" ++ h') k) ∧
    (∀ (nowMs : Int) (p k ts h h' : List Char) (tl : Option Int),
       jsToLower h = jsToLower h' → p ≠ [] → k ≠ [] → ts ≠ [] →
       (∀ c ∈ ts, c.isDigit) →
       (',' : Char) ∉ h → ('=' : Char) ∉ h → (',' : Char) ∉ h' → ('=' : Char) ∉ h' →
       stripeVerify nowMs p (mkStripeToken ts [h]) k ⟨tl, none, none, none⟩ =
         stripeVerify nowMs p (mkStripeToken ts [h']) k ⟨tl, none, none, none⟩) ∧
    (∀ (nowMs : Int) (p k ts h h' : List Char) (tl : Option Int),
       jsToLower h = jsToLower h' → p ≠ [] → k ≠ [] → h ≠ [] → h' ≠ [] →
       (∀ c ∈ ts, c.isDigit) →
       (',' : Char) ∉ h → ('=' : Char) ∉ h → (',' : Char) ∉ h' → ('=' : Char) ∉ h' →
       slackVerify nowMs p (s2c "v0=" ++ h ++ (s2c ",t=" ++ ts)) k ⟨tl, none, none, none⟩ =
         slackVerify nowMs p (s2c "v0=" ++ h' ++ (s2c ",t=" ++ ts)) k ⟨tl, none, none, none⟩) := by
  refine ⟨fun t u => hexUpperVariant_toLower, ?_, ?_, ?_, ?_⟩
  · intro p t u k hl hp hk ht hu
    refine ⟨?_, ?_, ?_⟩ <;>
      simp [vercelVerify, linearVerify, segmentVerify, hp, ht, hu, hk, hl]
  · intro p h h' k hl hp hk
    have hne : ∀ x : List Char, s2c "sha256=" ++ x ≠ [] := by
      intro x
      rw [show s2c "sha256=" ++ x = 's' :: (s2c "ha256=" ++ x) from rfl]
      simp
    have hne2 : ∀ x : List Char, s2c "sha1=" ++ x ≠ [] := by
      intro x
      rw [show s2c "sha1=" ++ x = 's' :: (s2c "ha1=" ++ x) from rfl]
      simp
    constructor
    · simp only [githubVerify, jsStartsWith_append, if_true, drop7_sha256, hl,
        if_neg (show ¬ (p = [] ∨ s2c "sha256=" ++ h = [] ∨ k = []) by
          push_neg; exact ⟨hp, hne h, hk⟩),
        if_neg (show ¬ (p = [] ∨ s2c "sha256=" ++ h' = [] ∨ k = []) by
          push_neg; exact ⟨hp, hne h', hk⟩)]
    · simp only [intercomVerify, jsStartsWith_append, if_true, drop5_sha1, hl,
        if_neg (show ¬ (p = [] ∨ s2c "sha1=" ++ h = [] ∨ k = []) by
          push_neg; exact ⟨hp, hne2 h, hk⟩),
        if_neg (show ¬ (p = [] ∨ s2c "sha1=" ++ h' = [] ∨ k = []) by
          push_neg; exact ⟨hp, hne2 h', hk⟩)]
  · intro nowMs p k ts h h' tl hl hp hk hts hdig hc1 he1 hc2 he2
    rw [stripeVerify_mkToken nowMs p k ts [h] tl hp hk hts hdig
        (by intro c hc; simp at hc; subst hc; exact ⟨hc1, he1⟩),
      stripeVerify_mkToken nowMs p k ts [h'] tl hp hk hts hdig
        (by intro c hc; simp at hc; subst hc; exact ⟨hc2, he2⟩)]
    simp only [List.any_cons, List.any_nil, secureCompare, hl]
    simp
  · intro nowMs p k ts h h' tl hl hp hk hh0 hh0' hdig hc1 he1 hc2 he2
    rw [slackVerify_mkToken nowMs p k h ts tl hp hk hh0 hdig ⟨hc1, he1⟩,
      slackVerify_mkToken nowMs p k h' ts tl hp hk hh0' hdig ⟨hc2, he2⟩, hl]

/-- C8 witness: the bridging conjunct and the GitHub conjunct at a
concrete upper-cased variant (`"AB12CD"` of `"ab12cd"`). -/
theorem claim_C8_hex_case_insensitive_witness :
    jsToLower (s2c "AB12CD") = jsToLower (s2c "ab12cd") ∧
    githubVerify (s2c "p") (s2c "sha256=" ++ s2c "ab12cd") (s2c "k") =
      githubVerify (s2c "p") (s2c "sha256=" ++ s2c "AB12CD") (s2c "k") := by
  constructor
  · exact claim_C8_hex_case_insensitive.1 (s2c "ab12cd") (s2c "AB12CD")
      (by
        simp only [hexUpperVariant, s2c]
        refine List.Forall₂.cons ?_ (List.Forall₂.cons ?_ (List.Forall₂.cons ?_
          (List.Forall₂.cons ?_ (List.Forall₂.cons ?_ (List.Forall₂.cons ?_
            List.Forall₂.nil))))) <;> decide)
  · exact (claim_C8_hex_case_insensitive.2.2.1 (s2c "p") (s2c "ab12cd") (s2c "AB12CD")
      (s2c "k") (by decide) (by decide) (by decide)).1

end WV

namespace WV

/-! ## Claim C9 -/

/-- C9: header normalization is equivalent to manual token construction.
For every provider supported by `providerHeaders`, whenever the required
header values extract (case-insensitively, first element of list-valued
headers, empty values counting as missing), `verify` with the header map
equals `verify` with the token built by the provider's documented grammar:
the header value itself for single-header providers, `"<sig>,t=<ts>"` for
Slack/Discord/SendGrid, and `"<sig>,t=<ts>,id=<id>"` for Svix/Clerk. -/
theorem claim_C9_header_normalization :
    (∀ (O : CryptoOracles) (nowMs : Int) (hs : Headers) (p k sig : List Char)
       (opts : VerifyOptions),
       getHeader hs (s2c "stripe-signature") = some sig → sig ≠ [] →
       verifyHdr O nowMs .stripe p hs k opts = verifyTok O nowMs .stripe p sig k opts) ∧
    (∀ (O : CryptoOracles) (nowMs : Int) (hs : Headers) (p k sig : List Char)
       (opts : VerifyOptions),
       getHeader hs (s2c "x-hub-signature-256") = some sig → sig ≠ [] →
       verifyHdr O nowMs .github p hs k opts = verifyTok O nowMs .github p sig k opts) ∧
    (∀ (O : CryptoOracles) (nowMs : Int) (hs : Headers) (p k sig : List Char)
       (opts : VerifyOptions),
       getHeader hs (s2c "x-shopify-hmac-sha256") = some sig → sig ≠ [] →
       verifyHdr O nowMs .shopify p hs k opts = verifyTok O nowMs .shopify p sig k opts) ∧
    (∀ (O : CryptoOracles) (nowMs : Int) (hs : Headers) (p k sig : List Char)
       (opts : VerifyOptions),
       getHeader hs (s2c "x-twilio-signature") = some sig → sig ≠ [] →
       verifyHdr O nowMs .twilio p hs k opts = verifyTok O nowMs .twilio p sig k opts) ∧
    (∀ (O : CryptoOracles) (nowMs : Int) (hs : Headers) (p k sig : List Char)
       (opts : VerifyOptions),
       getHeader hs (s2c "linear-signature") = some sig → sig ≠ [] →
       verifyHdr O nowMs .linear p hs k opts = verifyTok O nowMs .linear p sig k opts) ∧
    (∀ (O : CryptoOracles) (nowMs : Int) (hs : Headers) (p k sig : List Char)
       (opts : VerifyOptions),
       getHeader hs (s2c "x-vercel-signature") = some sig → sig ≠ [] →
       verifyHdr O nowMs .vercel p hs k opts = verifyTok O nowMs .vercel p sig k opts) ∧
    (∀ (O : CryptoOracles) (nowMs : Int) (hs : Headers) (p k sig : List Char)
       (opts : VerifyOptions),
       getHeader hs (s2c "paddle-signature") = some sig → sig ≠ [] →
       verifyHdr O nowMs .paddle p hs k opts = verifyTok O nowMs .paddle p sig k opts) ∧
    (∀ (O : CryptoOracles) (nowMs : Int) (hs : Headers) (p k sig : List Char)
       (opts : VerifyOptions),
       getHeader hs (s2c "x-hub-signature") = some sig → sig ≠ [] →
       verifyHdr O nowMs .intercom p hs k opts = verifyTok O nowMs .intercom p sig k opts) ∧
    (∀ (O : CryptoOracles) (nowMs : Int) (hs : Headers) (p k sig : List Char)
       (opts : VerifyOptions),
       getHeader hs (s2c "x-mailchimp-signature") = some sig → sig ≠ [] →
       verifyHdr O nowMs .mailchimp p hs k opts = verifyTok O nowMs .mailchimp p sig k opts) ∧
    (∀ (O : CryptoOracles) (nowMs : Int) (hs : Headers) (p k sig : List Char)
       (opts : VerifyOptions),
       getHeader hs (s2c "x-gitlab-token") = some sig → sig ≠ [] →
       verifyHdr O nowMs .gitlab p hs k opts = verifyTok O nowMs .gitlab p sig k opts) ∧
    (∀ (O : CryptoOracles) (nowMs : Int) (hs : Headers) (p k sig : List Char)
       (opts : VerifyOptions),
       getHeader hs (s2c "typeform-signature") = some sig → sig ≠ [] →
       verifyHdr O nowMs .typeform p hs k opts = verifyTok O nowMs .typeform p sig k opts) ∧
    (∀ (O : CryptoOracles) (nowMs : Int) (hs : Headers) (p k sig : List Char)
       (opts : VerifyOptions),
       getHeader hs (s2c "x-crystallize-signature") = some sig → sig ≠ [] →
       verifyHdr O nowMs .crystallize p hs k opts = verifyTok O nowMs .crystallize p sig k opts) ∧
    (∀ (O : CryptoOracles) (nowMs : Int) (hs : Headers) (p k sig ts : List Char)
       (opts : VerifyOptions),
       getHeader hs (s2c "x-slack-signature") = some sig → sig ≠ [] →
       getHeader hs (s2c "x-slack-request-timestamp") = some ts → ts ≠ [] →
       verifyHdr O nowMs .slack p hs k opts =
         verifyTok O nowMs .slack p (sig ++ s2c ",t=" ++ ts) k opts) ∧
    (∀ (O : CryptoOracles) (nowMs : Int) (hs : Headers) (p k sig ts : List Char)
       (opts : VerifyOptions),
       getHeader hs (s2c "x-signature-ed25519") = some sig → sig ≠ [] →
       getHeader hs (s2c "x-signature-timestamp") = some ts → ts ≠ [] →
       verifyHdr O nowMs .discord p hs k opts =
         verifyTok O nowMs .discord p (sig ++ s2c ",t=" ++ ts) k opts) ∧
    (∀ (O : CryptoOracles) (nowMs : Int) (hs : Headers) (p k sig ts id : List Char)
       (opts : VerifyOptions),
       getHeader hs (s2c "svix-signature") = some sig → sig ≠ [] →
       getHeader hs (s2c "svix-timestamp") = some ts → ts ≠ [] →
       getHeader hs (s2c "svix-id") = some id → id ≠ [] →
       verifyHdr O nowMs .svix p hs k opts =
         verifyTok O nowMs .svix p (sig ++ s2c ",t=" ++ ts ++ s2c ",id=" ++ id) k opts) ∧
    (∀ (O : CryptoOracles) (nowMs : Int) (hs : Headers) (p k sig ts id : List Char)
       (opts : VerifyOptions),
       getHeader hs (s2c "svix-signature") = some sig → sig ≠ [] →
       getHeader hs (s2c "svix-timestamp") = some ts → ts ≠ [] →
       getHeader hs (s2c "svix-id") = some id → id ≠ [] →
       verifyHdr O nowMs .clerk p hs k opts =
         verifyTok O nowMs .clerk p (sig ++ s2c ",t=" ++ ts ++ s2c ",id=" ++ id) k opts) ∧
    (∀ (O : CryptoOracles) (nowMs : Int) (hs : Headers) (p k sig ts : List Char)
       (opts : VerifyOptions),
       getHeader hs (s2c "x-twilio-email-event-webhook-signature") = some sig → sig ≠ [] →
       getHeader hs (s2c "x-twilio-email-event-webhook-timestamp") = some ts → ts ≠ [] →
       verifyHdr O nowMs .sendgrid p hs k opts =
         verifyTok O nowMs .sendgrid p (sig ++ s2c ",t=" ++ ts) k opts) ∧
    (∀ (O : CryptoOracles) (nowMs : Int) (hs : Headers) (p k sig : List Char)
       (opts : VerifyOptions),
       getHeader hs (s2c "x-twilio-email-event-webhook-signature") = some sig → sig ≠ [] →
       getHeader hs (s2c "x-twilio-email-event-webhook-timestamp") = none →
       verifyHdr O nowMs .sendgrid p hs k opts = verifyTok O nowMs .sendgrid p sig k opts) := by
  refine ⟨?_, ?_, ?_, ?_, ?_, ?_, ?_, ?_, ?_, ?_, ?_, ?_, ?_, ?_, ?_, ?_, ?_, ?_⟩
  · intro O nowMs hs p k sig opts hsig hne
    simp [verifyHdr, getSignatureTok, reqHeader, hsig, hne]
  · intro O nowMs hs p k sig opts hsig hne
    simp [verifyHdr, getSignatureTok, reqHeader, hsig, hne]
  · intro O nowMs hs p k sig opts hsig hne
    simp [verifyHdr, getSignatureTok, reqHeader, hsig, hne]
  · intro O nowMs hs p k sig opts hsig hne
    simp [verifyHdr, getSignatureTok, reqHeader, hsig, hne]
  · intro O nowMs hs p k sig opts hsig hne
    simp [verifyHdr, getSignatureTok, reqHeader, hsig, hne]
  · intro O nowMs hs p k sig opts hsig hne
    simp [verifyHdr, getSignatureTok, reqHeader, hsig, hne]
  · intro O nowMs hs p k sig opts hsig hne
    simp [verifyHdr, getSignatureTok, reqHeader, hsig, hne]
  · intro O nowMs hs p k sig opts hsig hne
    simp [verifyHdr, getSignatureTok, reqHeader, hsig, hne]
  · intro O nowMs hs p k sig opts hsig hne
    simp [verifyHdr, getSignatureTok, reqHeader, hsig, hne]
  · intro O nowMs hs p k sig opts hsig hne
    simp [verifyHdr, getSignatureTok, reqHeader, hsig, hne]
  · intro O nowMs hs p k sig opts hsig hne
    simp [verifyHdr, getSignatureTok, reqHeader, hsig, hne]
  · intro O nowMs hs p k sig opts hsig hne
    simp [verifyHdr, getSignatureTok, reqHeader, hsig, hne]
  · intro O nowMs hs p k sig ts opts hsig hne hts hne2
    simp [verifyHdr, getSignatureTok, reqHeader, hsig, hne, hts, hne2]
  · intro O nowMs hs p k sig ts opts hsig hne hts hne2
    simp [verifyHdr, getSignatureTok, reqHeader, hsig, hne, hts, hne2]
  · intro O nowMs hs p k sig ts id opts hsig hne hts hne2 hid hne3
    simp [verifyHdr, getSignatureTok, reqHeader, hsig, hne, hts, hne2, hid, hne3,
      List.append_assoc]
  · intro O nowMs hs p k sig ts id opts hsig hne hts hne2 hid hne3
    simp [verifyHdr, getSignatureTok, reqHeader, hsig, hne, hts, hne2, hid, hne3,
      List.append_assoc]
  · intro O nowMs hs p k sig ts opts hsig hne hts hne2
    simp [verifyHdr, getSignatureTok, reqHeader, hsig, hne, hts, hne2]
  · intro O nowMs hs p k sig opts hsig hne hts
    simp [verifyHdr, getSignatureTok, reqHeader, hsig, hne, hts]

end WV

namespace WV

/-- C9 witness: the Slack conjunct at a concrete header map with
mixed-case header names and a list-valued timestamp header. -/
theorem claim_C9_header_normalization_witness :
    verifyHdr noOracles 0 .slack (s2c "p")
      [(s2c "X-Slack-Signature", .str (s2c "v0=abc")),
       (s2c "x-slack-request-timestamp", .list [s2c "1000"])]
      (s2c "k") {} =
    verifyTok noOracles 0 .slack (s2c "p") (s2c "v0=abc" ++ s2c ",t=" ++ s2c "1000")
      (s2c "k") {} :=
  claim_C9_header_normalization.2.2.2.2.2.2.2.2.2.2.2.2.1 noOracles 0
    [(s2c "X-Slack-Signature", .str (s2c "v0=abc")),
     (s2c "x-slack-request-timestamp", .list [s2c "1000"])]
    (s2c "p") (s2c "k") (s2c "v0=abc") (s2c "1000") {}
    (by decide) (by decide) (by decide) (by decide)

/-! ## Claim C10 -/

/-- C10 counterexample: the claim fails when the bare secret itself starts
with `whsec_`.  With `s = "whsec_AAAA"`, the secret `"whsec_" + s` strips
one prefix and decodes `"whsec_AAAA"` as the key, while the secret `s`
strips its own prefix and decodes `"AAAA"`; a signature valid under the
first key is accepted with the prefixed secret and rejected with the bare
one. -/
theorem claim_C10_counterexample :
    svixVerify 1000000 (s2c "pay")
      (s2c "v1,riKu5zK78RZW8q9faggohpPMmMMtbsPtCORF9CCRIdA=,t=1000,id=id1")
      (s2c "whsec_" ++ s2c "whsec_AAAA") {} = true ∧
    svixVerify 1000000 (s2c "pay")
      (s2c "v1,riKu5zK78RZW8q9faggohpPMmMMtbsPtCORF9CCRIdA=,t=1000,id=id1")
      (s2c "whsec_AAAA") {} = false := by
  constructor
  · decide
  · decide

/-- C10 (amended): for Svix and Clerk the `whsec_` prefix on the secret is
optional: for every payload, signature token and options, and every
non-empty secret `s` that does not itself start with `whsec_`,
verification with secret `whsec_<s>` equals verification with `<s>` (both
base64-decode `s` into the HMAC key). -/
theorem claim_C10_whsec_prefix_optional :
    (∀ (nowMs : Int) (p sig s : List Char) (opts : VerifyOptions),
       s ≠ [] → jsStartsWith s (s2c "whsec_") = false →
       svixVerify nowMs p sig (s2c "whsec_" ++ s) opts = svixVerify nowMs p sig s opts) ∧
    (∀ (nowMs : Int) (p sig s : List Char) (opts : VerifyOptions),
       s ≠ [] → jsStartsWith s (s2c "whsec_") = false →
       clerkVerify nowMs p sig (s2c "whsec_" ++ s) opts = clerkVerify nowMs p sig s opts) := by
  have main : ∀ (nowMs : Int) (p sig s : List Char) (opts : VerifyOptions),
      s ≠ [] → jsStartsWith s (s2c "whsec_") = false →
      svixVerify nowMs p sig (s2c "whsec_" ++ s) opts = svixVerify nowMs p sig s opts := by
    intro nowMs p sig s opts hs0 hstart
    have hkey : svixSecretKey (s2c "whsec_" ++ s) = nodeB64Decode s := by
      simp only [svixSecretKey, jsStartsWith_append, if_true]
      rw [show (s2c "whsec_" ++ s).drop 6 = s from rfl]
    have hkey2 : svixSecretKey s = nodeB64Decode s := by
      simp [svixSecretKey, hstart]
    have hsn : s2c "whsec_" ++ s ≠ [] := by
      rw [show s2c "whsec_" ++ s = 'w' :: (s2c "hsec_" ++ s) from rfl]
      simp
    simp only [svixVerify, hkey, hkey2, hsn, hs0]
  exact ⟨main, fun nowMs p sig s opts hs0 hstart => main nowMs p sig s opts hs0 hstart⟩

/-- C10 witness: concrete bare secret `"aw=="`. -/
theorem claim_C10_whsec_prefix_optional_witness :
    svixVerify 0 (s2c "p") (s2c "x") (s2c "whsec_" ++ s2c "aw==") {} =
      svixVerify 0 (s2c "p") (s2c "x") (s2c "aw==") {} :=
  claim_C10_whsec_prefix_optional.1 0 (s2c "p") (s2c "x") (s2c "aw==") {}
    (by decide) (by decide)

end WV

namespace WV

/-! ## Claim C4 -/

/-- `opts.method || 'POST'` as the Crystallize verifier computes it. -/
def methodOrPOST (m : Option (List Char)) : List Char :=
  match m with
  | none => s2c "POST"
  | some mm => if mm = [] then s2c "POST" else mm

/-- Concrete Crystallize scenario: secret, URL and body. -/
def cSec : List Char := s2c "s"

def cUrl : List Char := s2c "u"

def cBody : List Char := s2c "b"

/-- Hex HMAC-SHA256 of `JSON.stringify({url:"u",method:"POST",body:"b"})`
under secret `"s"` (checked below in `cHmac_eval`). -/
def cHmacLit : List Char :=
  s2c "c0849d78c4891d8a4095101294d7bd8098d14803bbdd4505f42c92ab88a3a9c8"

/-- A JWT payload carrying only the `hmac` claim — no `exp`. -/
def cPayloadJson : List Char :=
  s2c "\x7b\"hmac\":\"c0849d78c4891d8a4095101294d7bd8098d14803bbdd4505f42c92ab88a3a9c8\"\x7d"

def cHeaderB64 : List Char := s2c "e30"

def cPayloadB64 : List Char := base64UrlEncode (utf8 cPayloadJson)

/-- A correctly HMAC-signed JWT over `cPayloadJson` with no `exp` claim. -/
def cToken : List Char :=
  cHeaderB64 ++ '.' :: (cPayloadB64 ++ '.' ::
    base64UrlEncode (hmacBytes .sha256 (utf8 cSec) (utf8 (cHeaderB64 ++ s2c "." ++ cPayloadB64))))

theorem cJwt_eval :
    verifyJwt cToken cSec = some (Json.obj [(s2c "hmac", .str cHmacLit)]) := by
  rw [show cToken = cHeaderB64 ++ '.' :: (cPayloadB64 ++ '.' ::
      base64UrlEncode (hmacBytes .sha256 (utf8 cSec)
        (utf8 (cHeaderB64 ++ s2c "." ++ cPayloadB64)))) from rfl]
  rw [verifyJwt_mk cHeaderB64 cPayloadB64 cSec (by decide) (dot_not_mem_b64UrlEncode' _)]
  rfl

theorem cHmac_eval :
    hexEncode (hmacBytes .sha256 (utf8 cSec)
      (utf8 (jsonStringifyUMB cUrl (s2c "POST") cBody))) = cHmacLit := by
  rfl

/-- C4 counterexample: a JWT with a **missing** `exp` claim whose
signature and `hmac` claim are valid is *accepted* by the Crystallize
verifier (the claim says it must be rejected). -/
theorem claim_C4_counterexample :
    crystallizeVerify 1000000 cBody cToken cSec
      { url := some cUrl } = .ok true ∧
    verifyJwt cToken cSec = some (Json.obj [(s2c "hmac", .str cHmacLit)]) ∧
    jsonGet (Json.obj [(s2c "hmac", .str cHmacLit)]) (s2c "exp") = none := by
  have hexp : jsonGet (Json.obj [(s2c "hmac", .str cHmacLit)]) (s2c "exp") = none := rfl
  have hhm : jsonGet (Json.obj [(s2c "hmac", .str cHmacLit)]) (s2c "hmac") =
      some (.str cHmacLit) := rfl
  have htr : jsTruthy (Json.obj [(s2c "hmac", .str cHmacLit)]) = true := rfl
  refine ⟨?_, cJwt_eval, hexp⟩
  simp only [crystallizeVerify, cJwt_eval, hexp, hhm, htr]
  rw [if_neg (by decide : ¬ (cUrl = []))]
  simp [cHmac_eval]

/-- A JWT payload with a stale `exp` claim. -/
def cPayloadJson2 : List Char := s2c "\x7b\"exp\":1,\"hmac\":\"x\"\x7d"

def cPayloadB64v2 : List Char := base64UrlEncode (utf8 cPayloadJson2)

/-- A correctly signed JWT over `cPayloadJson2` (`exp` long expired). -/
def cToken2 : List Char :=
  cHeaderB64 ++ '.' :: (cPayloadB64v2 ++ '.' ::
    base64UrlEncode (hmacBytes .sha256 (utf8 cSec) (utf8 (cHeaderB64 ++ s2c "." ++ cPayloadB64v2))))

theorem cJwt2_eval :
    verifyJwt cToken2 cSec =
      some (Json.obj [(s2c "exp", .num 1), (s2c "hmac", .str (s2c "x"))]) := by
  rw [show cToken2 = cHeaderB64 ++ '.' :: (cPayloadB64v2 ++ '.' ::
      base64UrlEncode (hmacBytes .sha256 (utf8 cSec)
        (utf8 (cHeaderB64 ++ s2c "." ++ cPayloadB64v2)))) from rfl]
  rw [verifyJwt_mk cHeaderB64 cPayloadB64v2 cSec (by decide) (dot_not_mem_b64UrlEncode' _)]
  rfl

/-- C4 (amended): the Crystallize verifier returns `true` only when the
JWT carried as the signature token is validly signed and carries an
`hmac` claim equal to the hex HMAC-SHA256 of `JSON{url,method,body}`,
and any numeric non-zero `exp` claim it carries (Unix seconds) is
unexpired; a JWT whose `exp` claim is in the past is rejected, but a JWT
with **no** `exp` claim is *not* rejected (expiry is only enforced when a
truthy numeric `exp` is present). -/
theorem claim_C4_crystallize_exp :
    (∀ (nowMs : Int) (p sig k u : List Char) (tl : Option Int) (mth : Option (List Char))
       (ads : Option (List (List Char))),
       crystallizeVerify nowMs p sig k ⟨tl, some u, mth, ads⟩ = .ok true →
       ∃ jp, verifyJwt sig k = some jp ∧
         (∀ n : Int, jsonGet jp (s2c "exp") = some (.num n) → n ≠ 0 →
            Int.fdiv nowMs 1000 ≤ n) ∧
         jsonGet jp (s2c "hmac") = some (.str (hexEncode (hmacBytes .sha256 (utf8 k)
           (utf8 (jsonStringifyUMB u (methodOrPOST mth) p)))))) ∧
    (∀ (nowMs : Int) (p sig k u : List Char) (tl : Option Int) (mth : Option (List Char))
       (ads : Option (List (List Char))) (jp : Json) (n : Int),
       u ≠ [] →
       verifyJwt sig k = some jp → jsonGet jp (s2c "exp") = some (.num n) →
       n ≠ 0 → n < Int.fdiv nowMs 1000 →
       crystallizeVerify nowMs p sig k ⟨tl, some u, mth, ads⟩ = .ok false) := by
  constructor
  · intro nowMs p sig k u tl mth ads h
    by_cases hu : u = []
    · rw [show crystallizeVerify nowMs p sig k ⟨tl, some u, mth, ads⟩ =
          .error (s2c "Crystallize verification requires url option") from by
            simp [crystallizeVerify, hu]] at h
      exact absurd h (by simp)
    · cases hjwt : verifyJwt sig k with
      | none =>
        rw [show crystallizeVerify nowMs p sig k ⟨tl, some u, mth, ads⟩ = .ok false from by
          simp [crystallizeVerify, hu, hjwt]] at h
        exact absurd h (by simp)
      | some jp =>
        simp only [crystallizeVerify, hjwt, if_neg hu] at h
        refine ⟨jp, rfl, ?_, ?_⟩
        · intro n hn hn0
          split at h
          · exact absurd h (by simp)
          · split at h
            · exact absurd h (by simp)
            · rename_i hns
              rw [hn] at hns
              simp [hn0] at hns
              omega
        · split at h
          · exact absurd h (by simp)
          · split at h
            · exact absurd h (by simp)
            · split at h
              · rename_i hhm
                simp only [Except.ok.injEq, decide_eq_true_eq] at h
                rw [hhm]
                exact congrArg some (congrArg Json.str h.symm)
              · exact absurd h (by simp)
  · intro nowMs p sig k u tl mth ads jp n hu hjwt hexp hn0 hlt
    simp only [crystallizeVerify, hjwt, if_neg hu]
    split
    · rfl
    · split
      · rfl
      · rename_i hns
        exfalso
        rw [hexp] at hns
        simp [hn0] at hns
        omega

/-- C4 (amended) witness: a validly signed JWT whose `exp` claim is `1`
(far in the past at `now = 1000`) is rejected. -/
theorem claim_C4_crystallize_exp_witness :
    crystallizeVerify 1000000 cBody cToken2 cSec { url := some cUrl } = .ok false :=
  claim_C4_crystallize_exp.2 1000000 cBody cToken2 cSec cUrl none none none
    (Json.obj [(s2c "exp", .num 1), (s2c "hmac", .str (s2c "x"))]) 1
    (by decide) cJwt2_eval rfl (by decide) (by decide)

end WV
